import Mathlib

/-!
# Mail delivery of the PBS server: `src/server/svr_mail.c`

A shallow embedding of the recipient construction of `svr_mailowner_id` and
`svr_mailownerResv`, of the mail-point tests and the sendmail path of
`svr_mailownerResv`, and of the SMTP client (`read_smtp_reply`,
`write3_smtp_data`, `create_socket_and_connect`, `send_mail`).

Conventions of the embedding.

* A C string is the list of its bytes before the terminating NUL (`CStr`).
  `strlen` is `List.length`, `strcat` is `++`, `strchr (s, c) == NULL` is `c ∉ s`.
* The `int` counter `mailaddrlen` is an integer kept in the 32-bit range by
  `toInt32` after every assignment; the comparison with `sizeof(mailto)`
  converts it to `size_t` first (`toSizeT`), as C does.
* System calls (`recv`, `send`, `socket`, `connect`, ...) take their results
  from a script, so that a statement quantified over scripts speaks about
  every behaviour of the network.
* Calls with an effect (`strcat` on `mailto`, `log_event`, `send`, `closesocket`,
  ...) are recorded, oldest first, by the function that makes them.
* The buffer `mailto` of the two `svr_mailowner` functions is followed write by
  write, so that its capacity is a theorem. The stack buffers of `send_mail`
  (`mailhost`, `mailto_full`, `mailfrom_full`) are not: the strings built in
  them are taken whole.
* Constants and tables of headers that are not in this file (`PBS_MAXHOSTNAME`,
  the mail points, the message catalogue) are fields of `Env`.
-/

namespace SvrMail

/-! ## C strings and machine integers -/

/-- Contents of a C string: its bytes before the terminating NUL. -/
abbrev CStr := List Char

/-- The string terminator. -/
def NUL : Char := Char.ofNat 0

/-- What a reader of a `char *` sees of a run of bytes: all bytes before the first NUL. -/
def cstr (bytes : List Char) : CStr := bytes.takeWhile (fun c => c != NUL)

/-- Value of an integer once it is stored in a 32-bit `int`. -/
def toInt32 (x : Int) : Int := (x + 2147483648) % 4294967296 - 2147483648

/-- Value of an `int` once converted to `size_t` (64 bits; with 32 bits every
comparison against 1024 below has the same outcome). -/
def toSizeT (x : Int) : Nat := (x % 18446744073709551616).toNat

/-- Position of the first occurrence of `c`, as `strchr` finds it; `none` is NULL. -/
def strchr : CStr → Char → Option Nat
  | [], _ => none
  | x :: xs, c => if x = c then some 0 else (strchr xs c).map (fun n => n + 1)

/-! ## Configuration and the objects mail is sent for -/

/-- The fields of `pbs_conf` read by this file; `none` is a NULL pointer. -/
structure pbs_config where
  pbs_mail_host_name : Option CStr
  pbs_smtp_server_name : Option CStr
  deriving DecidableEq, Repr

/-- The attributes of a job read when its mail is addressed.
`JOB_ATR_mailuser` is `none` when `ATR_VFLAG_SET` is clear, `some none` when it
is set with a NULL `at_arst`, and `some (some l)` for the strings
`as_string[0 .. as_usedptr - 1]`. -/
structure job where
  ji_jobid : CStr
  JOB_ATR_mailuser : Option (Option (List CStr))
  JOB_ATR_job_owner : CStr
  JOB_ATR_jobname : CStr
  deriving DecidableEq, Repr

/-- The attributes of a reservation read when its mail is addressed
(same reading of `RESV_ATR_mailuser` as for a job). -/
structure resc_resv where
  ri_resvID : CStr
  RESV_ATR_mailuser : Option (Option (List CStr))
  RESV_ATR_resv_owner : CStr
  RESV_ATR_resv_name : CStr
  deriving DecidableEq, Repr

/-! ## The recipient buffer `mailto` -/

/-- `MAIL_ADDR_BUF_LEN`, the size of `mailto`. -/
def MAIL_ADDR_BUF_LEN : Nat := 1024

/-- A `log_event` call of the recipient construction: the object it is logged
for and the text substituted for `%.77s`. -/
inductive LogEvent
  | list_too_long (objname : CStr) (shown : CStr)
  | address_too_long (objname : CStr) (shown : CStr)
  deriving DecidableEq, Repr

/-- State of the recipient construction. `appended` holds the contents of
`mailto` after each write to it, oldest first; `i` is the loop index. -/
structure MailBuf where
  mailto : CStr
  mailaddrlen : Int
  log : List LogEvent
  appended : List CStr
  i : Nat
  deriving DecidableEq, Repr

/-- State after `*mailto = 0` with `mailaddrlen = 0`. -/
def MailBuf.init : MailBuf :=
  { mailto := [], mailaddrlen := 0, log := [], appended := [], i := 0 }

/-- `strcat(mailto, s)`. -/
def MailBuf.strcat (b : MailBuf) (s : CStr) : MailBuf :=
  { b with mailto := b.mailto ++ s, appended := b.appended ++ [b.mailto ++ s] }

/-- The counter after `mailaddrlen += strlen(s) + 2` and, when the address gets
the mail host, `mailaddrlen += strlen(pbs_mail_host_name) + 1`; together with
`addmailhost`. -/
def count_candidate (host : Option CStr) (mailaddrlen : Int) (s : CStr) : Int × Bool :=
  let len1 := toInt32 (mailaddrlen + ((s.length + 2 : Nat) : Int))
  match host with
  | some h =>
    if strchr s '@' = none then (toInt32 (len1 + ((h.length + 1 : Nat) : Int)), true)
    else (len1, false)
  | none => (len1, false)

/-- The `for` loop over the mail-user list in `svr_mailowner_id` (lines 665-688). -/
def job_mailuser_loop (host : Option CStr) (jobid : CStr) : List CStr → MailBuf → MailBuf
  | [], b => b
  | s :: rest, b =>
    let (len, addmailhost) := count_candidate host b.mailaddrlen s
    if toSizeT len < MAIL_ADDR_BUF_LEN then
      let b1 := b.strcat s
      let b2 := if addmailhost then (b1.strcat ['@']).strcat (host.getD []) else b1
      let b3 := b2.strcat [' ']
      job_mailuser_loop host jobid rest { b3 with mailaddrlen := len, i := b.i + 1 }
    else
      { b with mailaddrlen := len,
               log := b.log ++ [LogEvent.list_too_long jobid (b.mailto.take 77)] }

/-- The `for` loop over the mail-user list in `svr_mailownerResv` (lines 918-941):
here the `else` that logs and leaves the loop belongs to `if (addmailhost)`. -/
def resv_mailuser_loop (host : Option CStr) (resvID : CStr) : List CStr → MailBuf → MailBuf
  | [], b => b
  | s :: rest, b =>
    let (len, addmailhost) := count_candidate host b.mailaddrlen s
    if toSizeT len < MAIL_ADDR_BUF_LEN then
      let b1 := b.strcat s
      if addmailhost then
        let b2 := (b1.strcat ['@']).strcat (host.getD [])
        let b3 := b2.strcat [' ']
        resv_mailuser_loop host resvID rest { b3 with mailaddrlen := len, i := b.i + 1 }
      else
        { b1 with mailaddrlen := len,
                  log := b1.log ++ [LogEvent.list_too_long resvID (b1.mailto.take 77)] }
    else
      resv_mailuser_loop host resvID rest { b with mailaddrlen := len, i := b.i + 1 }

/-- The owner branch, the same text in both functions (lines 695-712 and 948-965).
`buf` is the run of bytes in `mailto` up to the terminator written by
`mailto[sizeof(mailto) - 1] = 0` or by `strncpy`; `*pat = 0` and `*pat = '@'`
overwrite one byte of it. -/
def owner_mailto (host : Option CStr) (objname : CStr) (owner : CStr) : MailBuf :=
  let buf := (cstr owner).take (MAIL_ADDR_BUF_LEN - 1)
  let b0 : MailBuf := { MailBuf.init with mailto := cstr buf, appended := [cstr buf] }
  match host with
  | none => b0
  | some h =>
    let pat := strchr (cstr buf) '@'
    let buf1 := match pat with
      | some p => buf.set p NUL
      | none => buf
    if (cstr buf1).length + h.length + 1 < MAIL_ADDR_BUF_LEN then
      ({ b0 with mailto := cstr buf1 }.strcat ['@']).strcat h
    else
      let buf2 := match pat with
        | some p => buf1.set p '@'
        | none => buf1
      { b0 with mailto := cstr buf2,
                log := [LogEvent.address_too_long objname ((cstr buf2).take 77)] }

/-- The block of `svr_mailowner_id` that fills `mailto` (lines 654-718).
`pjob = none` is server mail, addressed to `mailfrom` by `strcpy`. -/
def svr_mailowner_id_mailto (pbs_conf : pbs_config) (mailfrom : CStr) (pjob : Option job) :
    MailBuf :=
  match pjob with
  | some j =>
    match j.JOB_ATR_mailuser with
    | some (some pas) =>
      job_mailuser_loop pbs_conf.pbs_mail_host_name j.ji_jobid pas MailBuf.init
    | some none => MailBuf.init
    | none => owner_mailto pbs_conf.pbs_mail_host_name j.ji_jobid j.JOB_ATR_job_owner
  | none => { MailBuf.init with mailto := mailfrom, appended := [mailfrom] }

/-- The block of `svr_mailownerResv` that fills `mailto` (lines 911-966). -/
def svr_mailownerResv_mailto (pbs_conf : pbs_config) (presv : resc_resv) : MailBuf :=
  match presv.RESV_ATR_mailuser with
  | some (some pas) =>
    resv_mailuser_loop pbs_conf.pbs_mail_host_name presv.ri_resvID pas MailBuf.init
  | some none => MailBuf.init
  | none => owner_mailto pbs_conf.pbs_mail_host_name presv.ri_resvID presv.RESV_ATR_resv_owner

/-! ## The SMTP client: environment and network -/

/-- What this file takes from headers and other files of the server that are
not part of it: `PBS_MAXHOSTNAME`, the mail points, the message catalogue
(`extern char *`, `none` is NULL), `server_host`, and what `%d` stores for a
number outside the range of `int`, which C leaves open. -/
structure Env where
  PBS_MAXHOSTNAME : Nat
  MAIL_ABORT : Int
  MAIL_BEGIN : Int
  MAIL_END : Int
  MAIL_STAGEIN : Int
  MAIL_CONFIRM : Int
  MAIL_NONE : Int
  msg_job_abort : Option CStr
  msg_job_start : Option CStr
  msg_job_end : Option CStr
  msg_job_stageinfail : Option CStr
  msg_resv_abort : Option CStr
  msg_resv_start : Option CStr
  msg_resv_end : Option CStr
  msg_resv_confirm : Option CStr
  server_host : CStr
  scan_out_of_range : Int → Int

/-- An endless script of results for the successive calls of a system call. -/
abbrev Script (α : Type) := Nat → α

/-- Result of the next call. -/
def Script.next {α : Type} (s : Script α) : α := s 0

/-- The script left after one call. -/
def Script.rest {α : Type} (s : Script α) : Script α := fun n => s (n + 1)

/-- The script that yields the entries of `l`, then `d` for ever. -/
def Script.ofList {α : Type} (l : List α) (d : α) : Script α := fun n => l.getD n d

/-- Result of one `recv`: `none` is `SOCKET_ERROR`, otherwise the bytes the
connection has ready (`[]` when the peer has closed it). -/
abbrev RecvResult := Option (List Char)

/-- Result of one `send`: `none` is `SOCKET_ERROR`, otherwise the byte count reported. -/
abbrev SendResult := Option Nat

/-- `SOCKET_ERROR` of Winsock. -/
def SOCKET_ERROR : Int := -1

/-- The calls made on sockets and to the log, as recorded. -/
inductive Event
  | gethostbyname (host : CStr)
  | socket (fd : Int)
  | connect (fd : Int) (port : Nat)
  | closesocket (fd : Int)
  | reply (fd : Int) (code : Int)
  | send (fd : Int) (msg : CStr) (result : SendResult)
  | log_err (code : Int) (routine : String) (text : String)
  deriving DecidableEq, Repr

/-- Results of the system calls inside one `create_socket_and_connect`.
`last_error` is `WSAGetLastError()` after a failed call other than `connect`,
`connect_error` after a failed `connect`. -/
structure ConnectScript where
  resolves : Bool
  socket : Int
  nonblock_ok : Bool
  connect : Int
  connect_error : Int
  select : Int
  block_ok : Bool
  last_error : Int
  deriving DecidableEq, Repr

/-- Behaviour of the network during the session of one recipient. -/
structure Network where
  conn : ConnectScript
  recvs : Script RecvResult
  sends : Script SendResult

/-- An open connection: its descriptor and what the network will still answer. -/
structure Conn where
  sock : Int
  recvs : Script RecvResult
  sends : Script SendResult

def WSAEINTR : Int := 10004
def WSAEWOULDBLOCK : Int := 10035
def WSAEADDRINUSE : Int := 10048
def WSAETIMEDOUT : Int := 10060
def WSAECONNREFUSED : Int := 10061

/-- `create_socket_and_connect(host, port)` (lines 121-200): the value returned,
`errno` after a failure (it is not read after a success, where 0 stands for
whatever it held), and the calls made. -/
def create_socket_and_connect (s : ConnectScript) (host : CStr) (port : Nat) :
    Int × Int × List Event :=
  if s.resolves = false then (-1, s.last_error, [Event.gethostbyname host])
  else if s.socket < 0 then (-1, s.last_error, [Event.gethostbyname host])
  else
    let sock := s.socket
    let ev := [Event.gethostbyname host, Event.socket sock]
    if s.nonblock_ok = false then (-1, s.last_error, ev)
    else if s.connect < 0 then
      let errno := s.connect_error
      if errno = WSAEINTR ∨ errno = WSAEADDRINUSE ∨ errno = WSAETIMEDOUT
          ∨ errno = WSAECONNREFUSED then
        (-1, errno, ev ++ [Event.connect sock port, Event.closesocket sock])
      else if errno = WSAEWOULDBLOCK then
        if s.select ≤ 0 then (-1, errno, ev ++ [Event.connect sock port])
        else if s.block_ok = false then (-1, s.last_error, ev ++ [Event.connect sock port])
        else (sock, errno, ev ++ [Event.connect sock port])
      else (-1, errno, ev ++ [Event.connect sock port, Event.closesocket sock])
    else (sock, 0, ev ++ [Event.connect sock port])

/-! ## `read_smtp_reply` -/

/-- White space as `%d` skips it: space and the controls 9 to 13. -/
def isspace (c : Char) : Bool := c.toNat = 32 || (9 ≤ c.toNat && c.toNat ≤ 13)

/-- The digits at the head of a string, accumulated most significant first. -/
def scan_digits : List Char → Nat → Nat
  | [], acc => acc
  | c :: cs, acc => if c.isDigit then scan_digits cs (acc * 10 + (c.toNat - 48)) else acc

/-- Value stored in an `int` by `%d` for the number `v` read: `v` itself when it
is in the range of `int`, otherwise some `int` chosen by the C library. -/
def store_int (E : Env) (v : Int) : Int :=
  if -2147483648 ≤ v ∧ v < 2147483648 then v else toInt32 (E.scan_out_of_range v)

/-- `sscanf(buf, "%d", &ret)`: skip white space, take an optional sign, then
decimal digits; `none` when there is no digit, and `ret` keeps its value. -/
def sscanf_d (E : Env) (buf : CStr) : Option Int :=
  match buf.dropWhile isspace with
  | [] => none
  | c :: t =>
    if c = '-' then
      match t with
      | [] => none
      | d :: _ => if d.isDigit then some (store_int E (-(scan_digits t 0 : Int))) else none
    else if c = '+' then
      match t with
      | [] => none
      | d :: _ => if d.isDigit then some (store_int E (scan_digits t 0 : Int)) else none
    else if c.isDigit then some (store_int E (scan_digits (c :: t) 0 : Int))
    else none

/-- The value `read_smtp_reply` returns for the result of its `recv` (lines 217-224):
at most 511 bytes are received, a NUL is put after them, and `%d` reads the buffer. -/
def reply_code (E : Env) (r : RecvResult) : Int :=
  match r with
  | none => 554
  | some data =>
    let buf := data.take 511
    if 0 < buf.length then
      match sscanf_d E (cstr buf) with
      | some ret => ret
      | none => 554
    else 554

/-- `read_smtp_reply(sock)`: the value returned, the connection after the `recv`,
and the call recorded. -/
def read_smtp_reply (E : Env) (c : Conn) : Int × Conn × List Event :=
  let ret := reply_code E c.recvs.next
  (ret, { c with recvs := c.recvs.rest }, [Event.reply c.sock ret])

/-! ## `write3_smtp_data` -/

/-- `send(sock, msg, strlen(msg), 0)`: the value returned, the connection after
the call, and the call recorded. -/
def send (c : Conn) (msg : CStr) : Int × Conn × List Event :=
  (match c.sends.next with
    | none => SOCKET_ERROR
    | some n => (n : Int),
   { c with sends := c.sends.rest }, [Event.send c.sock msg c.sends.next])

/-- One block `if (msg) { if ((sent = send(...)) == SOCKET_ERROR) return (SOCKET_ERROR); ct += sent; }`:
`none` stands for the `return`, `some ct` for falling through with the new `ct`.
The count is kept in ℤ: it sums what at most three `send` calls report. -/
def send_block (c : Conn) (ct : Int) (msg : Option CStr) : Option Int × Conn × List Event :=
  match msg with
  | none => (some ct, c, [])
  | some m =>
    match send c m with
    | (sent, c1, ev) => if sent = SOCKET_ERROR then (none, c1, ev) else (some (ct + sent), c1, ev)

/-- `write3_smtp_data(sock, msg1, msg2, msg3)` (lines 239-266): the value returned,
the connection after the calls, and the calls recorded. -/
def write3_smtp_data (c : Conn) (msg1 msg2 msg3 : Option CStr) : Int × Conn × List Event :=
  match send_block c 0 msg1 with
  | (none, c1, ev1) => (SOCKET_ERROR, c1, ev1)
  | (some ct1, c1, ev1) =>
    match send_block c1 ct1 msg2 with
    | (none, c2, ev2) => (SOCKET_ERROR, c2, ev1 ++ ev2)
    | (some ct2, c2, ev2) =>
      match send_block c2 ct2 msg3 with
      | (none, c3, ev3) => (SOCKET_ERROR, c3, ev1 ++ ev2 ++ ev3)
      | (some ct3, c3, ev3) => (ct3, c3, ev1 ++ ev2 ++ ev3)

/-! ## `send_mail` -/

/-- The record `send_mail` is started with (`none` is a NULL pointer). -/
structure mail_param where
  type : Int
  mailfrom : CStr
  mailto : CStr
  jobid : Option CStr
  mailpoint : Int
  jobname : Option CStr
  text : Option CStr
  deriving DecidableEq, Repr

/-- The tokens returned by `strtok(mailto, " ")` and the calls `strtok(NULL, " ")`
after it, up to the NULL: the maximal runs of bytes other than the delimiter.
`cur` is the token being scanned. -/
def strtok_all (delim : Char) : CStr → CStr → List CStr
  | [], cur => if cur = [] then [] else [cur]
  | c :: cs, cur =>
    if c = delim then
      if cur = [] then strtok_all delim cs [] else cur :: strtok_all delim cs []
    else strtok_all delim cs (cur ++ [c])

/-- One step of the conversation, each followed by its `log_err` text:
`expect` is `err_reply = read_smtp_reply(sock); if (err_reply != code) { log_err; goto error; }`,
`write` is `err_write = write3_smtp_data(...); if (err_write == SOCKET_ERROR) { log_err; goto error; }`. -/
inductive Step
  | expect (code : Int) (text : String)
  | write (msg1 msg2 msg3 : Option CStr) (text : String)
  deriving DecidableEq, Repr

/-- The calls made by the steps up to the first that fails; a failing step logs
and jumps to `error:`. -/
def run_steps (E : Env) : List Step → Conn → List Event
  | [], _ => []
  | Step.expect code text :: rest, c =>
    match read_smtp_reply E c with
    | (err_reply, c1, ev) =>
      if err_reply ≠ code then ev ++ [Event.log_err err_reply "send_mail" text]
      else ev ++ run_steps E rest c1
  | Step.write msg1 msg2 msg3 text :: rest, c =>
    match write3_smtp_data c msg1 msg2 msg3 with
    | (err_write, c1, ev) =>
      if err_write = SOCKET_ERROR then ev ++ [Event.log_err err_write "send_mail" text]
      else ev ++ run_steps E rest c1

/-- Carriage return and line feed. -/
def crlf : CStr := [Char.ofNat 13, Char.ofNat 10]

/-- Line feed, carriage return, line feed: the end of the first subject line. -/
def lfcrlf : CStr := [Char.ofNat 10, Char.ofNat 13, Char.ofNat 10]

/-- `mailfrom_full` (lines 299-303). -/
def mailfrom_full (mailfrom : CStr) : CStr :=
  if strchr mailfrom '@' ≠ none then "<".toList ++ mailfrom ++ ">".toList
  else "<".toList ++ mailfrom ++ "@pbspro.com>".toList

/-- `mailhost` for the recipient `pc` (lines 308-313); `strncpy` copies at most
`PBS_MAXHOSTNAME` bytes of the domain (the last byte of `mailhost`, which it
never writes, is taken to be NUL). -/
def mailhost (E : Env) (pc : CStr) : CStr :=
  match strchr pc '@' with
  | some p => (pc.drop (p + 1)).take E.PBS_MAXHOSTNAME
  | none => "localhost".toList

/-- The subject lines (lines 387-425). -/
def subject_steps (E : Env) (m : mail_param) : List Step :=
  if m.type = 1 then
    [ Step.write (some "Subject: PBS RESERVATION ".toList) m.jobid (some lfcrlf)
        "Error sending PBS RESERVATION to SMTP server",
      Step.write (some "Subject: PBS Reservation Id: ".toList) m.jobid (some crlf)
        "Error sending PBS RESERVATION Id to SMTP server",
      Step.write (some "Reservation Name: ".toList) m.jobname (some crlf)
        "Error sending PBS Reservation Name to SMTP server" ]
  else if m.type = 2 then
    [ Step.write (some "Subject: PBS Server on ".toList) (some E.server_host) (some lfcrlf)
        "Error sending PBS Server name to SMTP server" ]
  else
    [ Step.write (some "Subject: PBS JOB ".toList) m.jobid (some lfcrlf)
        "Error sending PBS JOB to SMTP server",
      Step.write (some "Subject: PBS Job Id: ".toList) m.jobid (some crlf)
        "Error sending PBS JOB Id to SMTP server",
      Step.write (some "Job Name: ".toList) m.jobname (some crlf)
        "Error sending PBS JOB Name to SMTP server" ]

/-- `stdmessage` after the `switch (mailpoint)` of `send_mail` (lines 430-448). -/
def send_mail_stdmessage (E : Env) (mailpoint : Int) : Option CStr :=
  if mailpoint = E.MAIL_ABORT then E.msg_job_abort
  else if mailpoint = E.MAIL_BEGIN then E.msg_job_start
  else if mailpoint = E.MAIL_END then E.msg_job_end
  else if mailpoint = E.MAIL_STAGEIN then E.msg_job_stageinfail
  else none

/-- The canned line and the text (lines 450-464). -/
def body_steps (E : Env) (m : mail_param) : List Step :=
  (match send_mail_stdmessage E m.mailpoint with
    | some stdmessage =>
      [Step.write (some stdmessage) (some crlf) none "Error sending Mail Point to SMTP server"]
    | none => []) ++
  (match m.text with
    | some text => [Step.write (some text) (some crlf) none "Error sending Mail Data to SMTP server"]
    | none => [])

/-- The conversation with the server for the recipient `pc` (lines 326-488). -/
def session_steps (E : Env) (m : mail_param) (pc : CStr) : List Step :=
  [ Step.expect 220 "Service not ready for creation and connection of socket.",
    Step.write (some "HELO ".toList) (some (mailhost E pc)) (some crlf)
      "Conversation with the mail server cannot be initiated.",
    Step.expect 250 "Service not ready for Initiation.",
    Step.write (some "MAIL FROM: ".toList) (some (mailfrom_full m.mailfrom)) (some crlf)
      "Error sending MAIL FROM: command to SMTP server",
    Step.expect 250 "Service not ready for setting the MAIL FROM attribute",
    Step.write (some "RCPT TO: ".toList) (some ("<".toList ++ pc ++ ">".toList)) (some crlf)
      "Error sending RCPT TO: command to SMTP server",
    Step.expect 250 "Service not ready for setting the RCPT TO attribute",
    Step.write (some "DATA ".toList) (some crlf) none
      "Error sending DATA command to SMTP server",
    Step.expect 354 "Service Not Ready for Data Setting",
    Step.write (some "To: ".toList) (some pc) (some crlf)
      "Error sending To: command to SMTP server" ] ++
  subject_steps E m ++ body_steps E m ++
  [ Step.write (some (".".toList ++ crlf)) none none
      "Error sending Mail Data Termination to SMTP server",
    Step.expect 250 "Service not ready to terminate Mail Data",
    Step.write (some ("QUIT".toList ++ crlf)) none none "Error sending QUIT to SMTP server",
    Step.expect 221 "Service not ready to Quit" ]

/-- The host the connection is made to (lines 315-319): `pbs_smtp_server_name`
when it is set, `mailhost` otherwise. -/
def smtp_host (E : Env) (pbs_conf : pbs_config) (pc : CStr) : CStr :=
  match pbs_conf.pbs_smtp_server_name with
  | some name => name
  | none => mailhost E pc

/-- One turn of the `while (pc)` loop (lines 308-491): the calls made for the
recipient `pc`. -/
def session (E : Env) (pbs_conf : pbs_config) (m : mail_param) (pc : CStr) (net : Network) :
    List Event :=
  match create_socket_and_connect net.conn (smtp_host E pbs_conf pc) 25 with
  | (sock, errno, ev) =>
    if sock < 0 then
      ev ++ [Event.log_err errno "send_mail" "Socket creation and connection Failed."]
    else
      ev ++ run_steps E (session_steps E m pc)
          { sock := sock, recvs := net.recvs, sends := net.sends }
        ++ [Event.closesocket sock]

/-- The `while (pc)` loop over the tokens still to come; `k` counts the turns made. -/
def send_mail_loop (E : Env) (pbs_conf : pbs_config) (m : mail_param) (net : Nat → Network) :
    List CStr → Nat → List (CStr × List Event)
  | [], _ => []
  | pc :: rest, k =>
    (pc, session E pbs_conf m pc (net k)) :: send_mail_loop E pbs_conf m net rest (k + 1)

/-- `send_mail` (lines 275-502): for each turn of its loop, the recipient and the
calls made for it. `net k` is the behaviour of the network during turn `k`. -/
def send_mail (E : Env) (pbs_conf : pbs_config) (m : mail_param) (net : Nat → Network) :
    List (CStr × List Event) :=
  send_mail_loop E pbs_conf m net (strtok_all ' ' m.mailto []) 0

/-! ## The mail-point gate and the sendmail path of `svr_mailownerResv` -/

/-- `strchr(s, c) != NULL` for an `int` `c`, which `strchr` converts to `char`:
the character 0 is found at the terminator of every string. -/
def strchr_int (s : CStr) (c : Int) : Bool :=
  c % 256 == 0 || s.any (fun ch => (ch.toNat : Int) == c % 256)

/-- The tests at the head of `svr_mailownerResv` (lines 858-880): `true` when
neither `return` is taken. `mailpnts` is `RESV_ATR_mailpnts`, `none` when
`ATR_VFLAG_SET` is clear; `MAIL_FORCE` is the constant of `job.h`. -/
def svr_mailownerResv_gate (E : Env) (MAIL_FORCE : Int) (mailpnts : Option CStr)
    (mailpoint force : Int) : Bool :=
  let requested : Bool :=
    if force ≠ MAIL_FORCE then
      match mailpnts with
      | some str => strchr_int str mailpoint
      | none => !(decide (mailpoint ≠ E.MAIL_ABORT) && decide (mailpoint ≠ E.MAIL_CONFIRM))
    else true
  if requested = false then false
  else
    match mailpnts with
    | some str => !(strchr_int str E.MAIL_NONE)
    | none => true

/-- `svr_mailownerResv` up to the point where the mail is handed over (lines
858-970): `none` when it returns at one of the tests of its head, otherwise the
state in which `mailto` has been built for the message. -/
def svr_mailownerResv (E : Env) (MAIL_FORCE : Int) (pbs_conf : pbs_config) (presv : resc_resv)
    (mailpnts : Option CStr) (mailpoint force : Int) : Option MailBuf :=
  if svr_mailownerResv_gate E MAIL_FORCE mailpnts mailpoint force = true then
    some (svr_mailownerResv_mailto pbs_conf presv)
  else none

/-- `stdmessage` after the `switch (mailpoint)` of the sendmail path of
`svr_mailownerResv` (lines 1011-1032). -/
def svr_mailownerResv_stdmessage (E : Env) (mailpoint : Int) : Option CStr :=
  if mailpoint = E.MAIL_ABORT then E.msg_resv_abort
  else if mailpoint = E.MAIL_BEGIN then E.msg_resv_start
  else if mailpoint = E.MAIL_END then E.msg_resv_end
  else if mailpoint = E.MAIL_CONFIRM then E.msg_resv_confirm
  else none

/-- The lines piped to sendmail by `svr_mailownerResv` (lines 1006-1040), one
string per `fprintf`. -/
def svr_mailownerResv_piped (E : Env) (presv : resc_resv) (mailto : CStr) (mailpoint : Int)
    (text : Option CStr) : List CStr :=
  [ "To: ".toList ++ mailto ++ [Char.ofNat 10],
    "Subject: PBS RESERVATION ".toList ++ presv.ri_resvID ++ [Char.ofNat 10, Char.ofNat 10],
    "PBS Reservation Id: ".toList ++ presv.ri_resvID ++ [Char.ofNat 10],
    "Reservation Name:   ".toList ++ presv.RESV_ATR_resv_name ++ [Char.ofNat 10] ] ++
  (match svr_mailownerResv_stdmessage E mailpoint with
    | some stdmessage => [stdmessage ++ [Char.ofNat 10]]
    | none => []) ++
  (match text with
    | some t => [t ++ [Char.ofNat 10]]
    | none => [])

/-! ## Vocabulary of the statements about recipients -/

/-- How an accepted candidate is written: `candidate@host` when a mail host is
configured and the candidate has no `@`, the candidate itself otherwise. -/
def written (host : Option CStr) (s : CStr) : CStr :=
  match host with
  | some h => if '@' ∈ s then s else s ++ '@' :: h
  | none => s

/-- Length a candidate is counted with: `len + 2`, plus `len host + 1` when it
is written with the host. -/
def renderedLen (host : Option CStr) (s : CStr) : Nat :=
  match host with
  | some h => if '@' ∈ s then s.length + 2 else s.length + 2 + (h.length + 1)
  | none => s.length + 2

/-- Running rendered length of a list of candidates. -/
def totalLen (host : Option CStr) (l : List CStr) : Nat :=
  (l.map (renderedLen host)).sum

/-- The candidates as written, each followed by one space. -/
def recipients (host : Option CStr) : List CStr → CStr
  | [] => []
  | s :: rest => written host s ++ ' ' :: recipients host rest

/-- Contents of `mailto` after each `strcat` made for one accepted candidate. -/
def accept_writes (host : Option CStr) (m s : CStr) : List CStr :=
  match host with
  | some h =>
    if '@' ∈ s then [m ++ s, m ++ s ++ [' ']]
    else [m ++ s, m ++ s ++ ['@'], m ++ s ++ ['@'] ++ h, m ++ s ++ ['@'] ++ h ++ [' ']]
  | none => [m ++ s, m ++ s ++ [' ']]

/-- State after one candidate has been accepted. -/
def MailBuf.accept (host : Option CStr) (b : MailBuf) (s : CStr) : MailBuf :=
  { mailto := b.mailto ++ (written host s ++ [' ']),
    mailaddrlen := b.mailaddrlen + (renderedLen host s : Int),
    log := b.log,
    appended := b.appended ++ accept_writes host b.mailto s,
    i := b.i + 1 }

/-- The rule for a single owner as the specification words it: with `o` the
owner address cut to 1023 bytes and `loc` its part before the first `@`, the
recipient, and whether the "Email address is too long" event is logged. -/
def owner_recipient (host : Option CStr) (owner : CStr) : CStr × Bool :=
  let o := owner.take 1023
  let loc := o.takeWhile (fun c => c != '@')
  match host with
  | none => (o, false)
  | some h => if loc.length + h.length + 1 < 1024 then (loc ++ '@' :: h, false) else (o, true)

/-- The capacity statement: `mailto`, at the end and after every write to it,
leaves room for its terminating NUL in `MAIL_ADDR_BUF_LEN` bytes. -/
def MailBuf.within_capacity (b : MailBuf) : Prop :=
  b.mailto.length + 1 ≤ MAIL_ADDR_BUF_LEN ∧ ∀ s ∈ b.appended, s.length + 1 ≤ MAIL_ADDR_BUF_LEN

/-! ## Vocabulary of the statements about the SMTP client -/

/-- Value of a decimal digit. -/
def digit_value (c : Char) : Nat := c.toNat - 48

/-- The number written by the decimal digits a text begins with; `none` when
it begins with no digit. -/
def leading_digits (text : CStr) : Option Nat :=
  if text.takeWhile Char.isDigit = [] then none
  else some (Nat.ofDigits 10 ((text.takeWhile Char.isDigit).reverse.map digit_value))

/-- The decimal integer a text begins with: an optional sign, then at least one
digit; `none` when the text begins with anything else. -/
def leading_integer (text : CStr) : Option Int :=
  match text with
  | [] => none
  | c :: t =>
    if c = '-' then (leading_digits t).map (fun n => -(n : Int))
    else if c = '+' then (leading_digits t).map (fun n => (n : Int))
    else (leading_digits (c :: t)).map (fun n => (n : Int))

/-- The fragments `write3_smtp_data` is to send: its arguments that are not NULL, in order. -/
def fragments (msg1 msg2 msg3 : Option CStr) : List CStr :=
  [msg1, msg2, msg3].reduceOption

/-- The first `n` calls of `send` on `c`, one for each of the first `n` fragments. -/
def send_calls (c : Conn) (frags : List CStr) (n : Nat) : List Event :=
  (List.range n).map (fun k => Event.send c.sock (frags.getD k []) (c.sends k))

/-- Sum of the byte counts the first `n` calls of `send` on `c` report. -/
def reported (c : Conn) (n : Nat) : Int :=
  ((List.range n).map (fun k => (((c.sends k).getD 0 : Nat) : Int))).sum

/-- A sample environment: the mail points of `job.h` and a message catalogue. -/
def Env.sample : Env :=
  { PBS_MAXHOSTNAME := 255
    MAIL_ABORT := 97
    MAIL_BEGIN := 98
    MAIL_END := 101
    MAIL_STAGEIN := 115
    MAIL_CONFIRM := 99
    MAIL_NONE := 110
    msg_job_abort := some "Aborted by PBS Server ".toList
    msg_job_start := some "Begun execution".toList
    msg_job_end := some "Execution terminated".toList
    msg_job_stageinfail := some "File stage in failed, see below.".toList
    msg_resv_abort := some "Reservation removed".toList
    msg_resv_start := some "Reservation period starting".toList
    msg_resv_end := some "Reservation period ended".toList
    msg_resv_confirm := some "Reservation transitioned from state UNCONFIRMED to CONFIRMED".toList
    server_host := "srv.example.com".toList
    scan_out_of_range := fun _ => 2147483647 }

/-- The `send` calls for a list of fragments, up to the first that fails: the
value returned, the connection left, and the calls made. -/
def send_all (c : Conn) (ct : Int) : List CStr → Int × Conn × List Event
  | [] => (ct, c, [])
  | f :: fs =>
    match c.sends.next with
    | none => (SOCKET_ERROR, { c with sends := c.sends.rest }, [Event.send c.sock f none])
    | some n =>
      ((send_all { c with sends := c.sends.rest } (ct + (n : Int)) fs).1,
       (send_all { c with sends := c.sends.rest } (ct + (n : Int)) fs).2.1,
       Event.send c.sock f (some n)
         :: (send_all { c with sends := c.sends.rest } (ct + (n : Int)) fs).2.2)

/-- The codes of the replies read, in order. -/
def codes_read : List Event → List Int
  | [] => []
  | Event.reply _ code :: evs => code :: codes_read evs
  | _ :: evs => codes_read evs

/-- The strings passed to `send`, in order. -/
def sent : List Event → List CStr
  | [] => []
  | Event.send _ msg _ :: evs => msg :: sent evs
  | _ :: evs => sent evs

/-- The entries of the log, in order. -/
def logged : List Event → List (Int × String)
  | [] => []
  | Event.log_err code _ text :: evs => (code, text) :: logged evs
  | _ :: evs => logged evs

/-- The reply codes a list of steps asks for, in order. -/
def expected_codes : List Step → List Int
  | [] => []
  | Step.expect code _ :: steps => code :: expected_codes steps
  | Step.write _ _ _ _ :: steps => expected_codes steps

/-- The fragments a list of steps is to send, in order. -/
def step_fragments : List Step → List CStr
  | [] => []
  | Step.expect _ _ :: steps => step_fragments steps
  | Step.write msg1 msg2 msg3 _ :: steps => fragments msg1 msg2 msg3 ++ step_fragments steps

/-- The hosts of the connection attempts (`create_socket_and_connect` begins
with `gethostbyname`), in order. -/
def connect_attempts : List Event → List CStr
  | [] => []
  | Event.gethostbyname host :: evs => host :: connect_attempts evs
  | _ :: evs => connect_attempts evs

/-- A connection script in which every call succeeds at once, on descriptor 5. -/
def ConnectScript.sample : ConnectScript :=
  { resolves := true, socket := 5, nonblock_ok := true, connect := 0, connect_error := 0,
    select := 1, block_ok := true, last_error := 0 }

/-- A connection script in which the connection is refused. -/
def ConnectScript.refused : ConnectScript :=
  { resolves := true, socket := 5, nonblock_ok := true, connect := -1,
    connect_error := WSAECONNREFUSED, select := 0, block_ok := true, last_error := 0 }

/-- A network on which the connection succeeds, the server sends the given
replies and then closes, and every `send` reports the bytes `n`. -/
def Network.sample (replies : List String) (n : Nat) : Network :=
  { conn := ConnectScript.sample,
    recvs := Script.ofList (replies.map (fun s => some s.toList)) (some []),
    sends := Script.ofList [] (some n) }

/-- A sample request: job mail at the start of job `12.srv`. -/
def mail_param.sample (mailto : String) : mail_param :=
  { type := 0, mailfrom := "adm".toList, mailto := mailto.toList,
    jobid := some "12.srv".toList, mailpoint := 98, jobname := some "STDIN".toList,
    text := some "hello".toList }

/-! ## Vocabulary of the statements about the wire, the sockets and the canned line -/

/-- The bytes put on the connection by a run of calls: of each string passed
to `send`, as many bytes as the call reports. -/
def wire : List Event → List Char
  | [] => []
  | Event.send _ msg (some n) :: evs => msg.take n ++ wire evs
  | _ :: evs => wire evs

/-- All the bytes of a list of fragments, in order. -/
def concat_all : List CStr → List Char
  | [] => []
  | f :: fs => f ++ concat_all fs

/-- The sockets open after a run of calls, given those open before it, oldest
first: `socket` opens one, `closesocket` closes it. -/
def open_after (opened : List Int) : List Event → List Int
  | [] => opened
  | Event.socket fd :: evs => open_after (opened ++ [fd]) evs
  | Event.closesocket fd :: evs => open_after (opened.erase fd) evs
  | _ :: evs => open_after opened evs

/-- The exit paths of `create_socket_and_connect` that return -1 with the
socket created and no `closesocket`: a failing `ioctlsocket`, and after a
`connect` that would block, a `select` that times out or fails, or the second
`ioctlsocket` failing. -/
def leaves_socket_open (s : ConnectScript) : Bool :=
  s.resolves && decide (0 ≤ s.socket) &&
    (!s.nonblock_ok ||
      (decide (s.connect < 0) && decide (s.connect_error = WSAEWOULDBLOCK) &&
        (decide (s.select ≤ 0) || !s.block_ok)))

/-- A connection script in which `connect` would block and `select` times out. -/
def ConnectScript.timeout : ConnectScript :=
  { resolves := true, socket := 5, nonblock_ok := true, connect := -1,
    connect_error := WSAEWOULDBLOCK, select := 0, block_ok := true, last_error := 0 }

/-- A network on which the connection succeeds, the server sends the given
replies and then closes, and the successive `send` calls report the given
counts, failing after them. -/
def Network.counted (replies : List String) (counts : List Nat) : Network :=
  { conn := ConnectScript.sample,
    recvs := Script.ofList (replies.map (fun s => some s.toList)) (some []),
    sends := Script.ofList (counts.map some) none }

/-! ## Lemmas on the recipient construction -/

theorem toInt32_of_range (x : Int) (h1 : -2147483648 ≤ x) (h2 : x < 2147483648) :
    toInt32 x = x := by
  unfold toInt32; omega

theorem toSizeT_lt_iff (x : Int) (h1 : -2147483648 ≤ x) (h2 : x < 2147483648) :
    toSizeT x < MAIL_ADDR_BUF_LEN ↔ (0 ≤ x ∧ x < 1024) := by
  unfold toSizeT MAIL_ADDR_BUF_LEN; omega

theorem strchr_eq_none_iff (s : CStr) (c : Char) : strchr s c = none ↔ c ∉ s := by
  induction s with
  | nil => simp [strchr]
  | cons x xs ih =>
    by_cases hx : x = c
    · simp [strchr, hx]
    · simp [strchr, hx, ih, Ne.symm hx]

theorem count_candidate_eq (host : Option CStr) (m : Int) (s : CStr)
    (h0 : 0 ≤ m) (h : m + (renderedLen host s : Int) < 2147483648) :
    count_candidate host m s =
      (m + (renderedLen host s : Int),
        match host with
        | some _ => decide ('@' ∉ s)
        | none => false) := by
  cases host with
  | none =>
    simp only [renderedLen] at h
    simp only [count_candidate, renderedLen]
    rw [toInt32_of_range _ (by omega) (by omega)]
  | some hn =>
    by_cases hs : '@' ∈ s
    · simp only [renderedLen, hs, if_true] at h
      have hne : ¬ strchr s '@' = none := by rw [strchr_eq_none_iff]; simpa using hs
      simp only [count_candidate, renderedLen, hs, hne, if_true, if_false]
      rw [toInt32_of_range _ (by omega) (by omega)]
      simp
    · simp only [renderedLen, hs, if_false] at h
      have hne : strchr s '@' = none := by rw [strchr_eq_none_iff]; exact hs
      simp only [count_candidate, renderedLen, hs, hne, if_true, if_false]
      push_cast at h ⊢
      rw [toInt32_of_range (m + (s.length + 2)) (by omega) (by omega)]
      rw [toInt32_of_range _ (by omega) (by omega)]
      simp; omega

theorem totalLen_cons (host : Option CStr) (s : CStr) (l : List CStr) :
    totalLen host (s :: l) = renderedLen host s + totalLen host l := by
  simp [totalLen]

theorem totalLen_append (host : Option CStr) (l1 l2 : List CStr) :
    totalLen host (l1 ++ l2) = totalLen host l1 + totalLen host l2 := by
  simp [totalLen]

/-- One accepted candidate of the job loop. -/
theorem job_loop_accept (host : Option CStr) (id s : CStr) (rest : List CStr) (b : MailBuf)
    (h0 : 0 ≤ b.mailaddrlen) (hfit : b.mailaddrlen + (renderedLen host s : Int) < 1024) :
    job_mailuser_loop host id (s :: rest) b = job_mailuser_loop host id rest (b.accept host s) := by
  have hc := count_candidate_eq host b.mailaddrlen s h0 (by omega)
  have hlt : toSizeT (b.mailaddrlen + (renderedLen host s : Int)) < MAIL_ADDR_BUF_LEN := by
    rw [toSizeT_lt_iff _ (by omega) (by omega)]; omega
  rw [job_mailuser_loop, hc]
  simp only [hlt, if_true]
  congr 1
  cases host with
  | none => simp [MailBuf.strcat, MailBuf.accept, written, accept_writes]
  | some hn =>
    by_cases hs : '@' ∈ s
    · simp [MailBuf.strcat, MailBuf.accept, written, accept_writes, hs]
    · simp [MailBuf.strcat, MailBuf.accept, written, accept_writes, hs]

theorem foldl_accept_mailto (host : Option CStr) :
    ∀ (pre : List CStr) (b : MailBuf),
      (pre.foldl (MailBuf.accept host) b).mailto = b.mailto ++ recipients host pre ∧
      (pre.foldl (MailBuf.accept host) b).log = b.log ∧
      (pre.foldl (MailBuf.accept host) b).i = b.i + pre.length ∧
      (pre.foldl (MailBuf.accept host) b).mailaddrlen = b.mailaddrlen + (totalLen host pre : Int) := by
  intro pre
  induction pre with
  | nil => intro b; simp [recipients, totalLen]
  | cons s pre ih =>
    intro b
    obtain ⟨h1, h2, h3, h4⟩ := ih (b.accept host s)
    simp only [List.foldl_cons]
    refine ⟨?_, ?_, ?_, ?_⟩
    · rw [h1]; simp [MailBuf.accept, recipients]
    · rw [h2]; simp [MailBuf.accept]
    · rw [h3]; simp [MailBuf.accept]; omega
    · rw [h4, totalLen_cons]; simp [MailBuf.accept]; omega

/-- The job loop over candidates that all fit. -/
theorem job_loop_fitting (host : Option CStr) (id : CStr) (tail : List CStr) :
    ∀ (pre : List CStr) (b : MailBuf), 0 ≤ b.mailaddrlen →
      b.mailaddrlen + (totalLen host pre : Int) < 1024 →
      job_mailuser_loop host id (pre ++ tail) b =
        job_mailuser_loop host id tail (pre.foldl (MailBuf.accept host) b) := by
  intro pre
  induction pre with
  | nil => intro b _ _; rfl
  | cons s pre ih =>
    intro b h0 hfit
    rw [totalLen_cons] at hfit
    push_cast at hfit
    rw [List.cons_append, job_loop_accept host id s (pre ++ tail) b h0 (by omega)]
    rw [ih (b.accept host s) (by simp [MailBuf.accept]; omega) (by simp [MailBuf.accept]; omega)]
    rfl

/-- The job loop at a candidate that does not fit. -/
theorem job_loop_reject (host : Option CStr) (id s : CStr) (rest : List CStr) (b : MailBuf)
    (h0 : 0 ≤ b.mailaddrlen) (hover : 1024 ≤ b.mailaddrlen + (renderedLen host s : Int))
    (hrange : b.mailaddrlen + (renderedLen host s : Int) < 2147483648) :
    job_mailuser_loop host id (s :: rest) b =
      { b with mailaddrlen := b.mailaddrlen + (renderedLen host s : Int),
               log := b.log ++ [LogEvent.list_too_long id (b.mailto.take 77)] } := by
  have hc := count_candidate_eq host b.mailaddrlen s h0 hrange
  have hlt : ¬ toSizeT (b.mailaddrlen + (renderedLen host s : Int)) < MAIL_ADDR_BUF_LEN := by
    rw [toSizeT_lt_iff _ (by omega) (by omega)]; omega
  rw [job_mailuser_loop, hc]; simp only [hlt, if_false]

theorem cstr_no_nul (l : List Char) : NUL ∉ cstr l := by
  induction l with
  | nil => simp [cstr]
  | cons x xs ih =>
    by_cases hx : x = NUL
    · simp [cstr, hx]
    · simp only [cstr, List.takeWhile_cons, bne_iff_ne, ne_eq, hx, not_false_eq_true,
        decide_True, if_true, List.mem_cons, not_or]
      exact ⟨fun h => hx h.symm, ih⟩

theorem cstr_of_no_nul (l : List Char) (h : NUL ∉ l) : cstr l = l := by
  induction l with
  | nil => simp [cstr]
  | cons x xs ih =>
    simp only [List.mem_cons, not_or] at h
    have hx : x ≠ NUL := fun e => h.1 e.symm
    simp only [cstr, List.takeWhile_cons, bne_iff_ne, ne_eq, hx, not_false_eq_true,
      decide_True, if_true, List.cons.injEq, true_and]
    exact ih h.2

/-- Overwriting the first `@` of a NUL-free buffer with NUL cuts the string there,
and writing the `@` back restores the buffer. -/
theorem poke_at (l : List Char) (hl : NUL ∉ l) :
    ∀ p, strchr l '@' = some p →
      cstr (l.set p NUL) = l.takeWhile (fun c => c != '@') ∧ (l.set p NUL).set p '@' = l := by
  induction l with
  | nil => intro p h; simp [strchr] at h
  | cons x xs ih =>
    intro p h
    simp only [List.mem_cons, not_or] at hl
    by_cases hx : x = '@'
    · subst hx
      simp only [strchr, if_true, Option.some.injEq] at h
      subst h
      simp [cstr]
    · simp only [strchr, hx, if_false, Option.map_eq_some'] at h
      obtain ⟨q, hq, rfl⟩ := h
      obtain ⟨h1, h2⟩ := ih hl.2 q hq
      have hx0 : x ≠ NUL := fun e => hl.1 e.symm
      refine ⟨?_, ?_⟩
      · simp only [List.set_cons_succ, cstr, List.takeWhile_cons, bne_iff_ne, ne_eq, hx0, hx,
          not_false_eq_true, decide_True, if_true, List.cons.injEq, true_and]
        exact h1
      · simp only [List.set_cons_succ, List.cons.injEq, true_and]
        exact h2

theorem takeWhile_no_at (l : List Char) (h : strchr l '@' = none) :
    l.takeWhile (fun c => c != '@') = l := by
  rw [strchr_eq_none_iff] at h
  induction l with
  | nil => rfl
  | cons x xs ih =>
    simp only [List.mem_cons, not_or] at h
    have hx : x ≠ '@' := fun e => h.1 e.symm
    simp only [List.takeWhile_cons, bne_iff_ne, ne_eq, hx, not_false_eq_true, decide_True,
      if_true, List.cons.injEq, true_and]
    exact ih h.2

theorem take_no_nul (l : List Char) (n : Nat) (h : NUL ∉ l) : NUL ∉ l.take n :=
  fun hm => h (List.mem_of_mem_take hm)

/-- The owner branch computes what `owner_recipient` describes. -/
theorem owner_mailto_eq (host : Option CStr) (objname owner : CStr) :
    (owner_mailto host objname owner).mailto = (owner_recipient host (cstr owner)).1 ∧
    (owner_mailto host objname owner).log =
      if (owner_recipient host (cstr owner)).2
      then [LogEvent.address_too_long objname (((cstr owner).take 1023).take 77)] else [] := by
  have hbuf : NUL ∉ (cstr owner).take 1023 := take_no_nul _ _ (cstr_no_nul owner)
  have hc : cstr ((cstr owner).take 1023) = (cstr owner).take 1023 := cstr_of_no_nul _ hbuf
  cases host with
  | none => simp [owner_mailto, owner_recipient, MAIL_ADDR_BUF_LEN, hc, MailBuf.init]
  | some h =>
    simp only [owner_mailto, owner_recipient, MAIL_ADDR_BUF_LEN, hc]
    cases hp : strchr ((cstr owner).take 1023) '@' with
    | none =>
      simp only [hc, takeWhile_no_at _ hp]
      split <;> simp [MailBuf.strcat, MailBuf.init, hc]
    | some p =>
      obtain ⟨h1, h2⟩ := poke_at _ hbuf p hp
      simp only [h1, h2, hc]
      split <;> simp [MailBuf.strcat, MailBuf.init, hc]

theorem written_length_succ_le (host : Option CStr) (s : CStr) :
    (written host s).length + 2 ≤ renderedLen host s := by
  cases host with
  | none => simp [written, renderedLen]
  | some h =>
    by_cases hs : '@' ∈ s
    · simp [written, renderedLen, hs]
    · simp [written, renderedLen, hs]; omega

theorem accept_writes_length (host : Option CStr) (m s : CStr) :
    ∀ t ∈ accept_writes host m s, t.length + 1 ≤ m.length + renderedLen host s := by
  intro t ht
  cases host with
  | none =>
    simp only [accept_writes, List.mem_cons, List.mem_singleton, List.not_mem_nil, or_false] at ht
    rcases ht with rfl | rfl <;> simp [renderedLen] <;> omega
  | some h =>
    by_cases hs : '@' ∈ s
    · simp only [accept_writes, hs, if_true, List.mem_cons, List.mem_singleton,
        List.not_mem_nil, or_false] at ht
      rcases ht with rfl | rfl <;> simp [renderedLen, hs] <;> omega
    · simp only [accept_writes, hs, if_false, List.mem_cons, List.mem_singleton,
        List.not_mem_nil, or_false] at ht
      rcases ht with rfl | rfl | rfl | rfl <;> simp [renderedLen, hs] <;> omega

/-- The job loop keeps `mailto` within its capacity while the counter stays in range. -/
theorem job_loop_within_capacity (host : Option CStr) (id : CStr) :
    ∀ (cands : List CStr) (b : MailBuf), 0 ≤ b.mailaddrlen →
      (b.mailto.length : Int) ≤ b.mailaddrlen → b.mailaddrlen < 1024 →
      (∀ s ∈ b.appended, s.length + 1 ≤ MAIL_ADDR_BUF_LEN) →
      b.mailaddrlen + (totalLen host cands : Int) < 2147483648 →
      (job_mailuser_loop host id cands b).within_capacity := by
  intro cands
  induction cands with
  | nil =>
    intro b _ h1 h2 h3 _
    exact ⟨by simp only [job_mailuser_loop, MAIL_ADDR_BUF_LEN]; omega, h3⟩
  | cons s rest ih =>
    intro b h0 h1 h2 h3 h4
    rw [totalLen_cons] at h4
    push_cast at h4
    have hw := written_length_succ_le host s
    by_cases hfit : b.mailaddrlen + (renderedLen host s : Int) < 1024
    · rw [job_loop_accept host id s rest b h0 hfit]
      apply ih
      · simp only [MailBuf.accept]; omega
      · simp only [MailBuf.accept, List.length_append, List.length_singleton]
        push_cast; omega
      · simp only [MailBuf.accept]; omega
      · intro t ht
        simp only [MailBuf.accept, List.mem_append] at ht
        rcases ht with ht | ht
        · exact h3 t ht
        · have := accept_writes_length host b.mailto s t ht
          simp only [MAIL_ADDR_BUF_LEN]; omega
      · simp only [MailBuf.accept]; omega
    · rw [job_loop_reject host id s rest b h0 (by omega) (by omega)]
      exact ⟨by simp only [MAIL_ADDR_BUF_LEN]; omega, h3⟩

/-- A candidate that gets the mail host, accepted by the reservation loop. -/
theorem resv_loop_accept (hn id s : CStr) (rest : List CStr) (b : MailBuf)
    (h0 : 0 ≤ b.mailaddrlen) (hs : '@' ∉ s)
    (hfit : b.mailaddrlen + (renderedLen (some hn) s : Int) < 1024) :
    resv_mailuser_loop (some hn) id (s :: rest) b =
      resv_mailuser_loop (some hn) id rest (b.accept (some hn) s) := by
  have hc := count_candidate_eq (some hn) b.mailaddrlen s h0 (by omega)
  have hlt : toSizeT (b.mailaddrlen + (renderedLen (some hn) s : Int)) < MAIL_ADDR_BUF_LEN := by
    rw [toSizeT_lt_iff _ (by omega) (by omega)]; omega
  rw [resv_mailuser_loop, hc]
  simp only [hlt, if_true, hs, not_false_eq_true, decide_True]
  congr 1
  simp [MailBuf.strcat, MailBuf.accept, written, accept_writes, hs]

/-- A candidate that fits but does not get the mail host: the reservation loop
appends it bare, logs and stops. -/
theorem resv_loop_stop (host : Option CStr) (id s : CStr) (rest : List CStr) (b : MailBuf)
    (h0 : 0 ≤ b.mailaddrlen) (hq : host = none ∨ '@' ∈ s)
    (hfit : b.mailaddrlen + (renderedLen host s : Int) < 1024) :
    resv_mailuser_loop host id (s :: rest) b =
      { mailto := b.mailto ++ s,
        mailaddrlen := b.mailaddrlen + (renderedLen host s : Int),
        log := b.log ++ [LogEvent.list_too_long id ((b.mailto ++ s).take 77)],
        appended := b.appended ++ [b.mailto ++ s],
        i := b.i } := by
  have hc := count_candidate_eq host b.mailaddrlen s h0 (by omega)
  have hlt : toSizeT (b.mailaddrlen + (renderedLen host s : Int)) < MAIL_ADDR_BUF_LEN := by
    rw [toSizeT_lt_iff _ (by omega) (by omega)]; omega
  rw [resv_mailuser_loop, hc]
  cases host with
  | none => simp [hlt, MailBuf.strcat]
  | some hn =>
    have hs : '@' ∈ s := by simpa using hq
    simp [hlt, MailBuf.strcat, hs]

/-- A candidate that does not fit: the reservation loop goes on to the next one. -/
theorem resv_loop_skip (host : Option CStr) (id s : CStr) (rest : List CStr) (b : MailBuf)
    (h0 : 0 ≤ b.mailaddrlen) (hover : 1024 ≤ b.mailaddrlen + (renderedLen host s : Int))
    (hrange : b.mailaddrlen + (renderedLen host s : Int) < 2147483648) :
    resv_mailuser_loop host id (s :: rest) b =
      resv_mailuser_loop host id rest
        { b with mailaddrlen := b.mailaddrlen + (renderedLen host s : Int), i := b.i + 1 } := by
  have hc := count_candidate_eq host b.mailaddrlen s h0 hrange
  have hlt : ¬ toSizeT (b.mailaddrlen + (renderedLen host s : Int)) < MAIL_ADDR_BUF_LEN := by
    rw [toSizeT_lt_iff _ (by omega) (by omega)]; omega
  rw [resv_mailuser_loop, hc]; simp only [hlt, if_false]

/-- The reservation loop keeps `mailto` within its capacity while the counter
stays in range. -/
theorem resv_loop_within_capacity (host : Option CStr) (id : CStr) :
    ∀ (cands : List CStr) (b : MailBuf), 0 ≤ b.mailaddrlen →
      (b.mailto.length : Int) ≤ b.mailaddrlen → b.mailto.length + 1 ≤ MAIL_ADDR_BUF_LEN →
      (∀ s ∈ b.appended, s.length + 1 ≤ MAIL_ADDR_BUF_LEN) →
      b.mailaddrlen + (totalLen host cands : Int) < 2147483648 →
      (resv_mailuser_loop host id cands b).within_capacity := by
  intro cands
  induction cands with
  | nil =>
    intro b _ _ h2 h3 _
    exact ⟨by simpa only [resv_mailuser_loop] using h2, h3⟩
  | cons s rest ih =>
    intro b h0 h1 h2 h3 h4
    rw [totalLen_cons] at h4
    push_cast at h4
    have hw := written_length_succ_le host s
    simp only [MAIL_ADDR_BUF_LEN] at h2
    by_cases hfit : b.mailaddrlen + (renderedLen host s : Int) < 1024
    · by_cases hq : host = none ∨ '@' ∈ s
      · rw [resv_loop_stop host id s rest b h0 hq hfit]
        have hlen : s.length + 2 ≤ renderedLen host s := by
          rcases hq with rfl | hs
          · simp [renderedLen]
          · cases host <;> simp [renderedLen, hs]
        refine ⟨?_, ?_⟩
        · simp only [List.length_append, MAIL_ADDR_BUF_LEN]; omega
        · intro t ht
          simp only [List.mem_append, List.mem_singleton] at ht
          rcases ht with ht | rfl
          · exact h3 t ht
          · simp only [List.length_append, MAIL_ADDR_BUF_LEN]; omega
      · obtain ⟨hn, rfl⟩ : ∃ hn, host = some hn := by
          cases host with
          | none => exact absurd (Or.inl rfl) hq
          | some hn => exact ⟨hn, rfl⟩
        have hs : '@' ∉ s := fun h => hq (Or.inr h)
        rw [resv_loop_accept hn id s rest b h0 hs hfit]
        apply ih
        · simp only [MailBuf.accept]; omega
        · simp only [MailBuf.accept, List.length_append, List.length_singleton]
          push_cast; omega
        · simp only [MailBuf.accept, List.length_append, List.length_singleton,
            MAIL_ADDR_BUF_LEN]
          omega
        · intro t ht
          simp only [MailBuf.accept, List.mem_append] at ht
          rcases ht with ht | ht
          · exact h3 t ht
          · have := accept_writes_length (some hn) b.mailto s t ht
            simp only [MAIL_ADDR_BUF_LEN]; omega
        · simp only [MailBuf.accept]; omega
    · rw [resv_loop_skip host id s rest b h0 (by omega) (by omega)]
      apply ih
      · simp only; omega
      · simp only; omega
      · simp only [MAIL_ADDR_BUF_LEN]; omega
      · exact h3
      · simp only; omega

/-- The owner branch keeps `mailto` within its capacity. -/
theorem owner_within_capacity (host : Option CStr) (objname owner : CStr) :
    (owner_mailto host objname owner).within_capacity := by
  have hbuf : NUL ∉ (cstr owner).take 1023 := take_no_nul _ _ (cstr_no_nul owner)
  have hc : cstr ((cstr owner).take 1023) = (cstr owner).take 1023 := cstr_of_no_nul _ hbuf
  have hlen : ((cstr owner).take 1023).length ≤ 1023 := by simp
  cases host with
  | none =>
    simp only [owner_mailto, MAIL_ADDR_BUF_LEN, hc, MailBuf.init, MailBuf.within_capacity,
      List.mem_singleton, forall_eq]
    omega
  | some h =>
    simp only [owner_mailto, MAIL_ADDR_BUF_LEN, hc]
    cases hp : strchr ((cstr owner).take 1023) '@' with
    | none =>
      simp only [hc]
      split
      · rename_i hf
        simp only [MailBuf.within_capacity, MailBuf.strcat, MailBuf.init, List.length_append,
          List.length_singleton, List.mem_append, List.mem_singleton, List.mem_cons,
          List.not_mem_nil, or_false, MAIL_ADDR_BUF_LEN]
        refine ⟨by omega, ?_⟩
        intro t ht
        rcases ht with (rfl | rfl) | rfl <;>
          first | omega | (simp only [List.length_append, List.length_singleton]; omega)
      · simp only [MailBuf.within_capacity, MailBuf.init, List.mem_singleton, forall_eq,
          MAIL_ADDR_BUF_LEN]
        omega
    | some p =>
      obtain ⟨h1, h2⟩ := poke_at _ hbuf p hp
      simp only [h1, h2, hc]
      split
      · rename_i hf
        simp only [MailBuf.within_capacity, MailBuf.strcat, MailBuf.init, List.length_append,
          List.length_singleton, List.mem_append, List.mem_singleton, List.mem_cons,
          List.not_mem_nil, or_false, MAIL_ADDR_BUF_LEN]
        refine ⟨by omega, ?_⟩
        intro t ht
        rcases ht with (rfl | rfl) | rfl <;>
          first | omega | (simp only [List.length_append, List.length_singleton]; omega)
      · simp only [MailBuf.within_capacity, MailBuf.init, List.mem_singleton, forall_eq,
          MAIL_ADDR_BUF_LEN]
        omega

theorem renderedLen_replicate (host : Option CStr) (n : Nat) (c : Char) (hc : c ≠ '@') :
    renderedLen host (List.replicate n c) =
      n + 2 + (match host with
        | some h => h.length + 1
        | none => 0) := by
  have hm : '@' ∉ List.replicate n c := by
    intro h
    exact hc (List.eq_of_mem_replicate h).symm
  cases host with
  | none => simp [renderedLen]
  | some h => simp [renderedLen, hm]

theorem recipients_cons_ne_nil (host : Option CStr) (s : CStr) (l : List CStr) :
    recipients host (s :: l) ≠ [] := by
  simp [recipients]

theorem toInt32_add_toInt32 (a b : Int) : toInt32 (toInt32 a + b) = toInt32 (a + b) := by
  unfold toInt32; omega

/-- The counter after one candidate: the 32-bit value of the sum, whatever its size. -/
theorem count_candidate_wrap (host : Option CStr) (m : Int) (s : CStr) :
    (count_candidate host m s).1 = toInt32 (m + (renderedLen host s : Int)) := by
  cases host with
  | none => simp only [count_candidate, renderedLen]
  | some hn =>
    by_cases hs : '@' ∈ s
    · have hne : ¬ strchr s '@' = none := by rw [strchr_eq_none_iff]; simpa using hs
      simp only [count_candidate, renderedLen, hs, hne, if_true, if_false]
    · have hne : strchr s '@' = none := by rw [strchr_eq_none_iff]; exact hs
      simp only [count_candidate, renderedLen, hs, hne, if_true, if_false]
      rw [toInt32_add_toInt32]
      congr 1
      push_cast
      omega

/-- The job loop at a candidate for which the test `mailaddrlen < sizeof(mailto)` fails. -/
theorem job_loop_reject_wrap (host : Option CStr) (id s : CStr) (rest : List CStr) (b : MailBuf)
    (hover : 1024 ≤ toSizeT (toInt32 (b.mailaddrlen + (renderedLen host s : Int)))) :
    job_mailuser_loop host id (s :: rest) b =
      { b with mailaddrlen := toInt32 (b.mailaddrlen + (renderedLen host s : Int)),
               log := b.log ++ [LogEvent.list_too_long id (b.mailto.take 77)] } := by
  have hc := count_candidate_wrap host b.mailaddrlen s
  have hlt : ¬ toSizeT (count_candidate host b.mailaddrlen s).1 < MAIL_ADDR_BUF_LEN := by
    rw [hc]; simp only [MAIL_ADDR_BUF_LEN]; omega
  rw [job_mailuser_loop]
  rcases hcc : count_candidate host b.mailaddrlen s with ⟨len, flag⟩
  rw [hcc] at hlt hc
  simp only at hlt hc
  subst hc
  simp only [hlt, if_false]

/-- A running length below 2^31 is what the counter holds and the test reads. -/
theorem toSizeT_toInt32_of_lt (n : Nat) (h : n < 2147483648) : toSizeT (toInt32 (n : Int)) = n := by
  unfold toSizeT toInt32; omega

/-! ## Lemmas on `read_smtp_reply` and `write3_smtp_data` -/

theorem scan_digits_eq : ∀ (t : List Char) (acc : Nat),
    scan_digits t acc = acc * 10 ^ (t.takeWhile Char.isDigit).length +
      Nat.ofDigits 10 ((t.takeWhile Char.isDigit).reverse.map digit_value) := by
  intro t
  induction t with
  | nil => intro acc; simp [scan_digits]
  | cons c cs ih =>
    intro acc
    by_cases hc : c.isDigit = true
    · simp only [scan_digits, hc, if_true, List.takeWhile_cons, List.length_cons,
        List.reverse_cons, List.map_append, List.map_cons, List.map_nil]
      rw [ih, Nat.ofDigits_append]
      simp only [List.length_map, List.length_reverse, Nat.ofDigits_singleton, digit_value]
      ring
    · simp [scan_digits, hc]

theorem scan_digits_zero (t : List Char) (h : t.takeWhile Char.isDigit ≠ []) :
    leading_digits t = some (scan_digits t 0) := by
  simp [leading_digits, h, scan_digits_eq]

theorem takeWhile_isDigit_cons (d : Char) (t : List Char) :
    (d :: t).takeWhile Char.isDigit ≠ [] ↔ d.isDigit = true := by
  by_cases hd : d.isDigit = true <;> simp [List.takeWhile_cons, hd]

theorem leading_digits_cons (d : Char) (t : List Char) :
    leading_digits (d :: t) = if d.isDigit then some (scan_digits (d :: t) 0) else none := by
  by_cases hd : d.isDigit = true
  · rw [scan_digits_zero _ ((takeWhile_isDigit_cons d t).2 hd)]; simp [hd]
  · simp [leading_digits, hd]

/-- `%d` stores the integer the text begins with after its white space. -/
theorem sscanf_d_eq (E : Env) (buf : CStr) :
    sscanf_d E buf = (leading_integer (buf.dropWhile isspace)).map (store_int E) := by
  unfold sscanf_d leading_integer
  cases buf.dropWhile isspace with
  | nil => rfl
  | cons c t =>
    simp only
    by_cases h1 : c = '-'
    · simp only [h1, if_true]
      cases t with
      | nil => simp [leading_digits]
      | cons d t2 =>
        rw [leading_digits_cons]
        by_cases hd : d.isDigit = true <;> simp [hd]
    · by_cases h2 : c = '+'
      · simp only [h2, if_true, if_neg (by decide : ¬ '+' = '-')]
        cases t with
        | nil => simp [leading_digits]
        | cons d t2 =>
          rw [leading_digits_cons]
          by_cases hd : d.isDigit = true <;> simp [hd]
      · simp only [h1, h2, if_false]
        rw [leading_digits_cons]
        by_cases hd : c.isDigit = true <;> simp [hd]

theorem send_block_none (c : Conn) (ct : Int) : send_block c ct none = (some ct, c, []) := rfl

theorem send_block_fail (c : Conn) (ct : Int) (m : CStr) (h : c.sends.next = none) :
    send_block c ct (some m)
      = (none, { c with sends := c.sends.rest }, [Event.send c.sock m none]) := by
  simp [send_block, send, h, SOCKET_ERROR]

theorem send_block_ok (c : Conn) (ct : Int) (m : CStr) (n : Nat) (h : c.sends.next = some n) :
    send_block c ct (some m)
      = (some (ct + (n : Int)), { c with sends := c.sends.rest },
          [Event.send c.sock m (some n)]) := by
  have hn : ¬ ((n : Int) = SOCKET_ERROR) := by simp only [SOCKET_ERROR]; omega
  simp [send_block, send, h, hn]

theorem send_block_some (c : Conn) (ct : Int) (m : CStr) :
    send_block c ct (some m) =
      match c.sends.next with
      | none => (none, { c with sends := c.sends.rest }, [Event.send c.sock m none])
      | some n => (some (ct + (n : Int)), { c with sends := c.sends.rest },
          [Event.send c.sock m (some n)]) := by
  cases h : c.sends.next with
  | none => exact send_block_fail c ct m h
  | some n => exact send_block_ok c ct m n h

/-- The three blocks of `write3_smtp_data` are the `send` calls for its fragments. -/
theorem write3_eq_send_all (c : Conn) (msg1 msg2 msg3 : Option CStr) :
    write3_smtp_data c msg1 msg2 msg3 = send_all c 0 (fragments msg1 msg2 msg3) := by
  rcases msg1 with _ | a <;> rcases msg2 with _ | b <;> rcases msg3 with _ | d <;>
    simp only [fragments, List.reduceOption_cons_of_none, List.reduceOption_cons_of_some,
      List.reduceOption_nil, write3_smtp_data, send_block_none, send_block_some, send_all] <;>
    cases h0 : c.sends.next <;> cases h1 : c.sends.rest.next <;>
    cases h2 : c.sends.rest.rest.next <;> simp [h0, h1, h2]

theorem send_calls_succ (c : Conn) (f : CStr) (fs : List CStr) (n : Nat) :
    send_calls c (f :: fs) (n + 1)
      = Event.send c.sock f (c.sends 0) :: send_calls { c with sends := c.sends.rest } fs n := by
  simp [send_calls, List.range_succ_eq_map, Script.rest, Function.comp_def]

theorem reported_succ (c : Conn) (n : Nat) :
    reported c (n + 1)
      = (((c.sends 0).getD 0 : Nat) : Int) + reported { c with sends := c.sends.rest } n := by
  simp [reported, List.range_succ_eq_map, Script.rest, Function.comp_def]

/-- All calls succeed: the counts add up and every fragment is sent. -/
theorem send_all_success : ∀ (frags : List CStr) (c : Conn) (ct : Int),
    (∀ k, k < frags.length → c.sends k ≠ none) →
    (send_all c ct frags).1 = ct + reported c frags.length ∧
    (send_all c ct frags).2.1 = { c with sends := fun k => c.sends (k + frags.length) } ∧
    (send_all c ct frags).2.2 = send_calls c frags frags.length := by
  intro frags
  induction frags with
  | nil => intro c ct _; simp [send_all, reported, send_calls]
  | cons f fs ih =>
    intro c ct hall
    obtain ⟨n0, e0⟩ := Option.ne_none_iff_exists'.mp (hall 0 (by simp))
    have e0' : c.sends.next = some n0 := e0
    obtain ⟨i1, i2, i3⟩ := ih { c with sends := c.sends.rest } (ct + (n0 : Int))
      (fun k hk => hall (k + 1) (by simpa using hk))
    simp only [send_all, e0', List.length_cons, send_calls_succ, reported_succ, e0]
    refine ⟨?_, ?_, ?_⟩
    · rw [i1]; simp; omega
    · rw [i2]; simp [Script.rest, Nat.add_assoc, Nat.add_comm 1]
    · rw [i3]

/-- Call `j` is the first to fail: the error value, and the calls up to `j` only. -/
theorem send_all_failure : ∀ (frags : List CStr) (c : Conn) (ct : Int) (j : Nat),
    j < frags.length → c.sends j = none → (∀ k, k < j → c.sends k ≠ none) →
    (send_all c ct frags).1 = SOCKET_ERROR ∧
    (send_all c ct frags).2.2 = send_calls c frags (j + 1) := by
  intro frags
  induction frags with
  | nil => intro c ct j hj; simp at hj
  | cons f fs ih =>
    intro c ct j hj hfail hbefore
    cases j with
    | zero =>
      have e0 : c.sends.next = none := hfail
      simp [send_all, e0, send_calls, hfail, List.range_succ]
    | succ j =>
      obtain ⟨n0, e0⟩ := Option.ne_none_iff_exists'.mp (hbefore 0 (by omega))
      have e0' : c.sends.next = some n0 := e0
      obtain ⟨i1, i2⟩ := ih { c with sends := c.sends.rest } (ct + (n0 : Int)) j
        (by simpa using hj) (by simpa [Script.rest] using hfail)
        (fun k hk => by simpa [Script.rest] using hbefore (k + 1) (by omega))
      simp only [send_all, e0', send_calls_succ, e0]
      exact ⟨i1, by rw [i2]⟩

/-! ## Lemmas on the conversation of `send_mail` -/


theorem codes_read_append (a b : List Event) : codes_read (a ++ b) = codes_read a ++ codes_read b := by
  induction a with
  | nil => rfl
  | cons e a ih => cases e <;> simp [codes_read, ih]

theorem sent_append (a b : List Event) : sent (a ++ b) = sent a ++ sent b := by
  induction a with
  | nil => rfl
  | cons e a ih => cases e <;> simp [sent, ih]

theorem logged_append (a b : List Event) : logged (a ++ b) = logged a ++ logged b := by
  induction a with
  | nil => rfl
  | cons e a ih => cases e <;> simp [logged, ih]

theorem expected_codes_append (a b : List Step) :
    expected_codes (a ++ b) = expected_codes a ++ expected_codes b := by
  induction a with
  | nil => rfl
  | cons s a ih => cases s <;> simp [expected_codes, ih]

theorem step_fragments_append (a b : List Step) :
    step_fragments (a ++ b) = step_fragments a ++ step_fragments b := by
  induction a with
  | nil => rfl
  | cons s a ih => cases s <;> simp [step_fragments, ih]

/-- What `send_all` leaves and records, whatever the outcome. -/
theorem send_all_shape : ∀ (frags : List CStr) (c : Conn) (ct : Int),
    (send_all c ct frags).2.1.sock = c.sock ∧
    (send_all c ct frags).2.1.recvs = c.recvs ∧
    codes_read (send_all c ct frags).2.2 = [] ∧
    logged (send_all c ct frags).2.2 = [] ∧
    (∀ e ∈ (send_all c ct frags).2.2, ∃ f r, e = Event.send c.sock f r) := by
  intro frags
  induction frags with
  | nil => intro c ct; simp [send_all, codes_read, logged]
  | cons f fs ih =>
    intro c ct
    cases h0 : c.sends.next with
    | none => simp [send_all, h0, codes_read, logged]
    | some n =>
      obtain ⟨i1, i2, i3, i4, i5⟩ := ih { c with sends := c.sends.rest } (ct + (n : Int))
      simp only [send_all, h0, codes_read, logged]
      refine ⟨i1, i2, i3, i4, ?_⟩
      intro e he
      rcases List.mem_cons.mp he with rfl | he
      · exact ⟨f, some n, rfl⟩
      · exact i5 e he

/-- When `send_all` does not return the error value, every call has succeeded. -/
theorem send_all_ok : ∀ (frags : List CStr) (c : Conn) (ct : Int), 0 ≤ ct →
    (send_all c ct frags).1 ≠ SOCKET_ERROR →
    sent (send_all c ct frags).2.2 = frags ∧
    (send_all c ct frags).2.1.sends = (fun k => c.sends (k + frags.length)) := by
  intro frags
  induction frags with
  | nil => intro c ct _ _; simp [send_all, sent]
  | cons f fs ih =>
    intro c ct hct hne
    cases h0 : c.sends.next with
    | none => simp [send_all, h0] at hne
    | some n =>
      simp only [send_all, h0] at hne ⊢
      obtain ⟨i1, i2⟩ := ih { c with sends := c.sends.rest } (ct + (n : Int)) (by omega) hne
      refine ⟨by simp [sent, i1], ?_⟩
      rw [i2]
      funext k
      simp [Script.rest, Nat.add_assoc, Nat.add_comm 1]

theorem reported_nonneg (c : Conn) (n : Nat) : 0 ≤ reported c n := by
  unfold reported
  apply List.sum_nonneg
  intro x hx
  simp only [List.mem_map] at hx
  obtain ⟨k, _, rfl⟩ := hx
  exact Int.natCast_nonneg _

theorem sent_send_calls : ∀ (frags : List CStr) (c : Conn),
    sent (send_calls c frags frags.length) = frags := by
  intro frags
  induction frags with
  | nil => intro c; simp [send_calls, sent]
  | cons f fs ih => intro c; simp [send_calls_succ, sent, ih]

/-- Splitting a trace at a reply that comes after calls which are not replies. -/
theorem split_after_sends (ev X pre post : List Event) (fd code : Int)
    (hev : codes_read ev = []) (h : ev ++ X = pre ++ Event.reply fd code :: post) :
    ∃ mid, pre = ev ++ mid ∧ X = mid ++ Event.reply fd code :: post := by
  induction ev generalizing pre with
  | nil => exact ⟨pre, rfl, h⟩
  | cons e ev ih =>
    cases pre with
    | nil =>
      simp only [List.cons_append, List.nil_append, List.cons.injEq] at h
      rw [h.1] at hev
      simp [codes_read] at hev
    | cons p pre =>
      simp only [List.cons_append, List.cons.injEq] at h
      have hev2 : codes_read ev = [] := by
        cases e <;> simp_all [codes_read]
      obtain ⟨mid, h1, h2⟩ := ih pre hev2 h.2
      exact ⟨mid, by rw [h.1, h1]; rfl, h2⟩

/-- The heart of the abort statement: wherever a reply event sits in the calls
made by a list of steps, the steps before it ran in full, and a code other than
the one its step asks for is followed by its log entry and nothing else. -/
theorem run_steps_at_reply (E : Env) : ∀ (steps : List Step) (c : Conn)
    (pre post : List Event) (fd code : Int),
    run_steps E steps c = pre ++ Event.reply fd code :: post →
    ∃ before req text after, steps = before ++ Step.expect req text :: after ∧
      codes_read pre = expected_codes before ∧ sent pre = step_fragments before ∧
      logged pre = [] ∧ fd = c.sock ∧
      (code ≠ req → post = [Event.log_err code "send_mail" text]) := by
  intro steps
  induction steps with
  | nil =>
    intro c pre post fd code h
    simp [run_steps] at h
  | cons s rest ih =>
    intro c pre post fd code h
    cases s with
    | expect code0 text0 =>
      simp only [run_steps, read_smtp_reply, List.singleton_append] at h
      cases pre with
      | nil =>
        refine ⟨[], code0, text0, rest, rfl, rfl, rfl, rfl, ?_, ?_⟩
        · by_cases hc : reply_code E c.recvs.next = code0
          · simp only [hc, ne_eq, not_true_eq_false, if_false, List.nil_append,
              List.cons.injEq, Event.reply.injEq] at h
            exact h.1.1.symm
          · simp only [hc, ne_eq, not_false_eq_true, if_true, List.nil_append,
              List.cons.injEq, Event.reply.injEq] at h
            exact h.1.1.symm
        · intro hne
          by_cases hc : reply_code E c.recvs.next = code0
          · simp only [hc, ne_eq, not_true_eq_false, if_false, List.nil_append,
              List.cons.injEq, Event.reply.injEq] at h
            exact absurd h.1.2.symm hne
          · simp only [hc, ne_eq, not_false_eq_true, if_true, List.nil_append,
              List.cons.injEq, Event.reply.injEq] at h
            rw [← h.2, h.1.2]
      | cons p pre =>
        by_cases hc : reply_code E c.recvs.next = code0
        · simp only [hc, ne_eq, not_true_eq_false, if_false, List.cons_append,
            List.cons.injEq] at h
          obtain ⟨before, req, text, after, e1, e2, e3, e4, e5, e6⟩ :=
            ih _ pre post fd code h.2
          refine ⟨Step.expect code0 text0 :: before, req, text, after, by rw [e1]; rfl,
            ?_, ?_, ?_, e5, e6⟩
          · rw [← h.1]; simp [codes_read, expected_codes, e2]
          · rw [← h.1]; simp [sent, step_fragments, e3]
          · rw [← h.1]; simp [logged, e4]
        · simp only [hc, ne_eq, not_false_eq_true, if_true, List.cons_append,
            List.cons.injEq] at h
          have h2 := h.2
          cases pre with
          | nil => simp at h2
          | cons q pre => simp at h2
    | write msg1 msg2 msg3 text0 =>
      simp only [run_steps, write3_eq_send_all] at h
      obtain ⟨s1, s2, s3, s4, _⟩ := send_all_shape (fragments msg1 msg2 msg3) c 0
      by_cases hr : (send_all c 0 (fragments msg1 msg2 msg3)).1 = SOCKET_ERROR
      · simp only [hr, if_true] at h
        obtain ⟨mid, _, h2⟩ := split_after_sends _ _ _ _ _ _ s3 h
        cases mid with
        | nil => simp at h2
        | cons q mid =>
          simp only [List.cons_append, List.cons.injEq] at h2
          have := h2.2
          cases mid <;> simp at this
      · simp only [hr, if_false] at h
        obtain ⟨mid, h1, h2⟩ := split_after_sends _ _ _ _ _ _ s3 h
        obtain ⟨before, req, text, after, e1, e2, e3, e4, e5, e6⟩ := ih _ mid post fd code h2
        obtain ⟨o1, _⟩ := send_all_ok (fragments msg1 msg2 msg3) c 0 (le_refl 0) hr
        refine ⟨Step.write msg1 msg2 msg3 text0 :: before, req, text, after, by rw [e1]; rfl,
          ?_, ?_, ?_, by rw [e5, s1], e6⟩
        · rw [h1, codes_read_append, s3, e2]; rfl
        · rw [h1, sent_append, o1, e3]; rfl
        · rw [h1, logged_append, s4, e4]; rfl

theorem connect_events_plain (s : ConnectScript) (host : CStr) (port : Nat) :
    codes_read (create_socket_and_connect s host port).2.2 = [] ∧
    sent (create_socket_and_connect s host port).2.2 = [] ∧
    logged (create_socket_and_connect s host port).2.2 = [] ∧
    connect_attempts (create_socket_and_connect s host port).2.2 = [host] := by
  by_cases h1 : s.resolves = false <;> by_cases h2 : s.socket < 0 <;>
    by_cases h3 : s.nonblock_ok = false <;> by_cases h4 : s.connect < 0 <;>
    by_cases h5 : (s.connect_error = WSAEINTR ∨ s.connect_error = WSAEADDRINUSE ∨
      s.connect_error = WSAETIMEDOUT ∨ s.connect_error = WSAECONNREFUSED) <;>
    by_cases h6 : s.connect_error = WSAEWOULDBLOCK <;> by_cases h7 : s.select ≤ 0 <;>
    by_cases h8 : s.block_ok = false <;>
    simp only [create_socket_and_connect, h1, h2, h3, h4, h5, h6, h7, h8, if_true, if_false,
      codes_read, sent, logged, connect_attempts, List.cons_append, List.nil_append, and_self]

theorem expected_codes_session (E : Env) (m : mail_param) (pc : CStr) :
    expected_codes (session_steps E m pc) = [220, 250, 250, 250, 354, 250, 221] := by
  have h1 : expected_codes (subject_steps E m) = [] := by
    unfold subject_steps; split_ifs <;> rfl
  have h2 : expected_codes (body_steps E m) = [] := by
    unfold body_steps
    cases send_mail_stdmessage E m.mailpoint <;> cases m.text <;> rfl
  simp [session_steps, expected_codes_append, expected_codes, h1, h2]

/-- A trace that ends with a call which is not a reply, split at a reply. -/
theorem split_before_last (A mid post : List Event) (x : Event) (fd code : Int)
    (hx : x ≠ Event.reply fd code) (h : A ++ [x] = mid ++ Event.reply fd code :: post) :
    ∃ post1, post = post1 ++ [x] ∧ A = mid ++ Event.reply fd code :: post1 := by
  rcases List.eq_nil_or_concat post with rfl | ⟨post1, y, rfl⟩
  · have h2 : A ++ [x] = mid ++ [Event.reply fd code] := h
    have := List.append_inj_right' h2 rfl
    simp only [List.cons.injEq, and_true] at this
    exact absurd this hx
  · have h2 : A ++ [x] = (mid ++ Event.reply fd code :: post1) ++ [y] := by
      rw [h]; simp
    have e1 := List.append_inj_left' h2 rfl
    have e2 := List.append_inj_right' h2 rfl
    simp only [List.cons.injEq, and_true] at e2
    exact ⟨post1, by rw [e2]; simp, e1⟩

/-- A trace whose replies end with `y` has a last reply event, with code `y`. -/
theorem codes_read_split : ∀ (l : List Event) (xs : List Int) (y : Int),
    codes_read l = xs ++ [y] →
    ∃ pre fd post, l = pre ++ Event.reply fd y :: post ∧ codes_read pre = xs ∧
      codes_read post = [] := by
  intro l
  induction l with
  | nil => intro xs y h; simp [codes_read] at h
  | cons e l ih =>
    intro xs y h
    by_cases he : ∃ fd code, e = Event.reply fd code
    · obtain ⟨fd, code, rfl⟩ := he
      simp only [codes_read] at h
      cases xs with
      | nil =>
        simp only [List.nil_append, List.cons.injEq] at h
        exact ⟨[], fd, l, by rw [h.1]; rfl, rfl, h.2⟩
      | cons x xs =>
        simp only [List.cons_append, List.cons.injEq] at h
        obtain ⟨pre, fd2, post, e1, e2, e3⟩ := ih xs y h.2
        exact ⟨Event.reply fd code :: pre, fd2, post, by rw [e1]; rfl,
          by simp [codes_read, e2, h.1], e3⟩
    · have hc : codes_read (e :: l) = codes_read l := by
        cases e <;> first | rfl | exact absurd ⟨_, _, rfl⟩ he
      rw [hc] at h
      obtain ⟨pre, fd2, post, e1, e2, e3⟩ := ih xs y h
      exact ⟨e :: pre, fd2, post, by rw [e1]; rfl, by
        have : codes_read (e :: pre) = codes_read pre := by
          cases e <;> first | rfl | exact absurd ⟨_, _, rfl⟩ he
        rw [this, e2], e3⟩

/-- The step a reply belongs to is fixed by the number of replies before it. -/
theorem split_at_expect_unique : ∀ (b1 b2 a1 a2 : List Step) (r1 r2 : Int) (t1 t2 : String),
    b1 ++ Step.expect r1 t1 :: a1 = b2 ++ Step.expect r2 t2 :: a2 →
    (expected_codes b1).length = (expected_codes b2).length →
    b1 = b2 ∧ r1 = r2 ∧ t1 = t2 ∧ a1 = a2 := by
  intro b1
  induction b1 with
  | nil =>
    intro b2 a1 a2 r1 r2 t1 t2 h hl
    cases b2 with
    | nil =>
      simp only [List.nil_append, List.cons.injEq, Step.expect.injEq] at h
      exact ⟨rfl, h.1.1, h.1.2, h.2⟩
    | cons s b2 =>
      simp only [List.nil_append, List.cons_append, List.cons.injEq] at h
      rw [← h.1] at hl
      simp [expected_codes] at hl
  | cons s b1 ih =>
    intro b2 a1 a2 r1 r2 t1 t2 h hl
    cases b2 with
    | nil =>
      simp only [List.nil_append, List.cons_append, List.cons.injEq] at h
      rw [h.1] at hl
      simp [expected_codes] at hl
    | cons s2 b2 =>
      simp only [List.cons_append, List.cons.injEq] at h
      obtain ⟨rfl, h2⟩ := h
      have hl2 : (expected_codes b1).length = (expected_codes b2).length := by
        cases s <;> simpa [expected_codes] using hl
      obtain ⟨e1, e2, e3, e4⟩ := ih b2 a1 a2 r1 r2 t1 t2 h2 hl2
      exact ⟨by rw [e1], e2, e3, e4⟩

/-- Every `send` succeeds and every reply is the one asked for: all steps run. -/
theorem run_steps_success (E : Env) : ∀ (steps : List Step) (c : Conn),
    (∀ k, c.sends k ≠ none) →
    (∀ k, k < (expected_codes steps).length →
      reply_code E (c.recvs k) = (expected_codes steps).getD k 0) →
    codes_read (run_steps E steps c) = expected_codes steps ∧
    sent (run_steps E steps c) = step_fragments steps ∧
    logged (run_steps E steps c) = [] := by
  intro steps
  induction steps with
  | nil => intro c _ _; exact ⟨rfl, rfl, rfl⟩
  | cons s rest ih =>
    intro c hs hr
    cases s with
    | expect code0 text0 =>
      have h0 : reply_code E c.recvs.next = code0 := by
        simpa [expected_codes] using hr 0 (by simp [expected_codes])
      obtain ⟨i1, i2, i3⟩ := ih { c with recvs := c.recvs.rest } hs (fun k hk => by
        have := hr (k + 1) (by simpa [expected_codes] using hk)
        simpa [expected_codes, Script.rest] using this)
      simp only [run_steps, read_smtp_reply, h0, ne_eq, not_true_eq_false, if_false,
        List.singleton_append]
      exact ⟨by simp [codes_read, expected_codes, i1], by simp [sent, step_fragments, i2],
        by simp [logged, i3]⟩
    | write msg1 msg2 msg3 text0 =>
      obtain ⟨a1, a2, a3⟩ := send_all_success (fragments msg1 msg2 msg3) c 0
        (fun k _ => hs k)
      obtain ⟨s1, s2, s3, s4, _⟩ := send_all_shape (fragments msg1 msg2 msg3) c 0
      have hne : (send_all c 0 (fragments msg1 msg2 msg3)).1 ≠ SOCKET_ERROR := by
        rw [a1]
        have := reported_nonneg c (fragments msg1 msg2 msg3).length
        simp only [SOCKET_ERROR]; omega
      obtain ⟨i1, i2, i3⟩ := ih (send_all c 0 (fragments msg1 msg2 msg3)).2.1
        (by rw [a2]; intro k; exact hs _)
        (by rw [a2]; intro k hk; simpa [expected_codes] using hr k (by simpa [expected_codes] using hk))
      simp only [run_steps, write3_eq_send_all, hne, if_false]
      refine ⟨?_, ?_, ?_⟩
      · rw [codes_read_append, s3, i1]; rfl
      · rw [sent_append, a3, sent_send_calls, i2]; rfl
      · rw [logged_append, s4, i3]; rfl

/-- The trace of a session whose connection was made. -/
theorem session_connected (E : Env) (pbs_conf : pbs_config) (m : mail_param) (pc : CStr)
    (net : Network)
    (h : 0 ≤ (create_socket_and_connect net.conn (smtp_host E pbs_conf pc) 25).1) :
    session E pbs_conf m pc net =
      (create_socket_and_connect net.conn (smtp_host E pbs_conf pc) 25).2.2 ++
        run_steps E (session_steps E m pc)
          { sock := (create_socket_and_connect net.conn (smtp_host E pbs_conf pc) 25).1,
            recvs := net.recvs, sends := net.sends } ++
        [Event.closesocket (create_socket_and_connect net.conn (smtp_host E pbs_conf pc) 25).1] := by
  unfold session
  rcases hc : create_socket_and_connect net.conn (smtp_host E pbs_conf pc) 25 with ⟨sock, errno, ev⟩
  rw [hc] at h
  have : ¬ sock < 0 := by simpa using h
  simp [this]

/-- The trace of a session whose connection failed. -/
theorem session_not_connected (E : Env) (pbs_conf : pbs_config) (m : mail_param) (pc : CStr)
    (net : Network)
    (h : (create_socket_and_connect net.conn (smtp_host E pbs_conf pc) 25).1 < 0) :
    session E pbs_conf m pc net =
      (create_socket_and_connect net.conn (smtp_host E pbs_conf pc) 25).2.2 ++
        [Event.log_err (create_socket_and_connect net.conn (smtp_host E pbs_conf pc) 25).2.1
          "send_mail" "Socket creation and connection Failed."] := by
  unfold session
  rcases hc : create_socket_and_connect net.conn (smtp_host E pbs_conf pc) 25 with ⟨sock, errno, ev⟩
  rw [hc] at h
  have : sock < 0 := by simpa using h
  simp [this]

theorem connect_attempts_append (a b : List Event) :
    connect_attempts (a ++ b) = connect_attempts a ++ connect_attempts b := by
  induction a with
  | nil => rfl
  | cons e a ih => cases e <;> simp [connect_attempts, ih]

theorem connect_attempts_of_sends (fd : Int) (l : List Event)
    (h : ∀ e ∈ l, ∃ f r, e = Event.send fd f r) : connect_attempts l = [] := by
  induction l with
  | nil => rfl
  | cons e l ih =>
    obtain ⟨f, r, rfl⟩ := h e (List.mem_cons_self _ _)
    simpa [connect_attempts] using ih (fun e he => h e (List.mem_cons_of_mem _ he))

/-- The conversation makes no connection attempt of its own. -/
theorem connect_attempts_run_steps (E : Env) : ∀ (steps : List Step) (c : Conn),
    connect_attempts (run_steps E steps c) = [] := by
  intro steps
  induction steps with
  | nil => intro c; rfl
  | cons s rest ih =>
    intro c
    cases s with
    | expect code0 text0 =>
      simp only [run_steps, read_smtp_reply]
      split <;> simp [connect_attempts, ih]
    | write msg1 msg2 msg3 text0 =>
      obtain ⟨_, _, _, _, s5⟩ := send_all_shape (fragments msg1 msg2 msg3) c 0
      have hs := connect_attempts_of_sends _ _ s5
      simp only [run_steps, write3_eq_send_all]
      split <;> simp [connect_attempts_append, connect_attempts, hs, ih]

/-- Each session makes exactly one connection attempt, to `smtp_host`. -/
theorem connect_attempts_session (E : Env) (pbs_conf : pbs_config) (m : mail_param)
    (pc : CStr) (net : Network) :
    connect_attempts (session E pbs_conf m pc net) = [smtp_host E pbs_conf pc] := by
  obtain ⟨_, _, _, k4⟩ := connect_events_plain net.conn (smtp_host E pbs_conf pc) 25
  by_cases hs : (create_socket_and_connect net.conn (smtp_host E pbs_conf pc) 25).1 < 0
  · rw [session_not_connected E pbs_conf m pc net hs, connect_attempts_append, k4]; rfl
  · rw [session_connected E pbs_conf m pc net (by omega), connect_attempts_append,
      connect_attempts_append, k4, connect_attempts_run_steps]
    rfl

/-- The tokens of `strtok` are the non-empty pieces between the delimiters. -/
theorem strtok_all_eq (delim : Char) : ∀ (s cur : CStr),
    strtok_all delim s cur =
      ((s.splitOn delim).modifyHead (fun t => cur ++ t)).filter (fun t => !t.isEmpty) := by
  intro s
  induction s with
  | nil =>
    intro cur
    cases cur <;> simp [strtok_all, List.modifyHead]
  | cons c cs ih =>
    intro cur
    by_cases hc : c = delim
    · subst hc
      have h0 := ih []
      simp only [List.nil_append] at h0
      have hid : (List.splitOn c cs).modifyHead (fun t => t) = List.splitOn c cs := by
        cases List.splitOn c cs <;> rfl
      rw [hid] at h0
      cases cur with
      | nil => simp [strtok_all, List.splitOn, List.modifyHead, h0]
      | cons x xs => simp [strtok_all, List.splitOn, List.modifyHead, h0]
    · have h1 := ih (cur ++ [c])
      simp only [strtok_all, hc, if_false, h1, List.splitOn, List.splitOnP_cons, beq_iff_eq,
        Bool.false_eq_true]
      congr 1
      cases List.splitOnP (fun x => x == delim) cs <;> simp [List.modifyHead]

/-- The loop of `send_mail` makes one turn per token, in order, turn `k` with the
network behaviour `net (k0 + k)`. -/
theorem send_mail_loop_spec (E : Env) (pbs_conf : pbs_config) (m : mail_param)
    (net : Nat → Network) : ∀ (toks : List CStr) (k0 : Nat),
    (send_mail_loop E pbs_conf m net toks k0).map Prod.fst = toks ∧
    ∀ k p, (send_mail_loop E pbs_conf m net toks k0)[k]? = some p →
      p.2 = session E pbs_conf m p.1 (net (k0 + k)) := by
  intro toks
  induction toks with
  | nil => intro k0; simp [send_mail_loop]
  | cons pc rest ih =>
    intro k0
    obtain ⟨i1, i2⟩ := ih (k0 + 1)
    refine ⟨by simp [send_mail_loop, i1], ?_⟩
    intro k p hp
    cases k with
    | zero =>
      simp only [send_mail_loop, List.getElem?_cons_zero, Option.some.injEq] at hp
      rw [← hp]; rfl
    | succ k =>
      simp only [send_mail_loop, List.getElem?_cons_succ] at hp
      have := i2 k p hp
      rw [this]
      congr 2
      omega

/-! ## Lemmas on the wire, the sockets and the gate -/

theorem wire_append (a b : List Event) : wire (a ++ b) = wire a ++ wire b := by
  induction a with
  | nil => rfl
  | cons e a ih =>
    cases e with
    | send fd msg r => cases r <;> simp [wire, ih]
    | _ => simp [wire, ih]

theorem concat_all_append (a b : List CStr) : concat_all (a ++ b) = concat_all a ++ concat_all b := by
  induction a with
  | nil => rfl
  | cons f a ih => simp [concat_all, ih]

/-- Calls of `send` that each report the whole of their string put all the
fragments on the connection. -/
theorem wire_send_calls : ∀ (frags : List CStr) (c : Conn),
    (∀ k, k < frags.length → c.sends k = some (frags.getD k []).length) →
    wire (send_calls c frags frags.length) = concat_all frags := by
  intro frags
  induction frags with
  | nil => intro c _; simp [send_calls, wire, concat_all]
  | cons f fs ih =>
    intro c h
    have h0 := h 0 (by simp)
    simp only [List.getD_cons_zero] at h0
    rw [List.length_cons, send_calls_succ, h0]
    simp only [wire, concat_all, List.take_length]
    rw [ih { c with sends := c.sends.rest } (fun k hk => by
      have := h (k + 1) (by simpa using hk)
      simpa [Script.rest] using this)]

theorem connect_events_wire (s : ConnectScript) (host : CStr) (port : Nat) :
    wire (create_socket_and_connect s host port).2.2 = [] := by
  by_cases h1 : s.resolves = false <;> by_cases h2 : s.socket < 0 <;>
    by_cases h3 : s.nonblock_ok = false <;> by_cases h4 : s.connect < 0 <;>
    by_cases h5 : (s.connect_error = WSAEINTR ∨ s.connect_error = WSAEADDRINUSE ∨
      s.connect_error = WSAETIMEDOUT ∨ s.connect_error = WSAECONNREFUSED) <;>
    by_cases h6 : s.connect_error = WSAEWOULDBLOCK <;> by_cases h7 : s.select ≤ 0 <;>
    by_cases h8 : s.block_ok = false <;>
    simp only [create_socket_and_connect, h1, h2, h3, h4, h5, h6, h7, h8, if_true, if_false,
      wire, List.cons_append, List.nil_append]

/-- Every `send` reports the whole of its string and every reply is the one
asked for: the bytes on the connection are the fragments of the steps. -/
theorem run_steps_wire (E : Env) : ∀ (steps : List Step) (c : Conn),
    (∀ k, k < (step_fragments steps).length →
      c.sends k = some ((step_fragments steps).getD k []).length) →
    (∀ k, k < (expected_codes steps).length →
      reply_code E (c.recvs k) = (expected_codes steps).getD k 0) →
    wire (run_steps E steps c) = concat_all (step_fragments steps) := by
  intro steps
  induction steps with
  | nil => intro c _ _; rfl
  | cons s rest ih =>
    intro c hs hr
    cases s with
    | expect code0 text0 =>
      have h0 : reply_code E c.recvs.next = code0 := by
        simpa [expected_codes] using hr 0 (by simp [expected_codes])
      have i1 := ih { c with recvs := c.recvs.rest } hs (fun k hk => by
        have := hr (k + 1) (by simpa [expected_codes] using hk)
        simpa [expected_codes, Script.rest] using this)
      simp only [run_steps, read_smtp_reply, h0, ne_eq, not_true_eq_false, if_false,
        List.singleton_append, wire, step_fragments]
      exact i1
    | write msg1 msg2 msg3 text0 =>
      have hfr : ∀ k, k < (fragments msg1 msg2 msg3).length →
          c.sends k = some ((fragments msg1 msg2 msg3).getD k []).length := by
        intro k hk
        have := hs k (by simp only [step_fragments, List.length_append]; omega)
        simpa [step_fragments, List.getD_eq_getElem?_getD, List.getElem?_append_left hk]
          using this
      obtain ⟨a1, a2, a3⟩ := send_all_success (fragments msg1 msg2 msg3) c 0
        (fun k hk => by rw [hfr k hk]; simp)
      have hne : (send_all c 0 (fragments msg1 msg2 msg3)).1 ≠ SOCKET_ERROR := by
        rw [a1]
        have := reported_nonneg c (fragments msg1 msg2 msg3).length
        simp only [SOCKET_ERROR]; omega
      have i1 := ih (send_all c 0 (fragments msg1 msg2 msg3)).2.1
        (by
          rw [a2]
          intro k hk
          have := hs (k + (fragments msg1 msg2 msg3).length)
            (by simp only [step_fragments, List.length_append]; omega)
          simpa [step_fragments, List.getD_eq_getElem?_getD,
            List.getElem?_append_right (Nat.le_add_left _ _)] using this)
        (by rw [a2]; intro k hk; simpa [expected_codes] using hr k (by simpa [expected_codes] using hk))
      simp only [run_steps, write3_eq_send_all, hne, if_false]
      rw [wire_append, a3, wire_send_calls _ _ hfr, i1]
      simp [step_fragments, concat_all_append]

/-- The bytes of a whole session in which the connection is made, every `send`
reports the whole of its string and every reply is the required one. -/
theorem session_wire (E : Env) (pbs_conf : pbs_config) (m : mail_param) (pc : CStr)
    (net : Network)
    (hconn : 0 ≤ (create_socket_and_connect net.conn (smtp_host E pbs_conf pc) 25).1)
    (hsend : ∀ k, k < (step_fragments (session_steps E m pc)).length →
      net.sends k = some ((step_fragments (session_steps E m pc)).getD k []).length)
    (hrecv : (List.range 7).map (fun k => reply_code E (net.recvs k))
      = [220, 250, 250, 250, 354, 250, 221]) :
    wire (session E pbs_conf m pc net) =
      "HELO ".toList ++ mailhost E pc ++ crlf ++
      "MAIL FROM: ".toList ++ mailfrom_full m.mailfrom ++ crlf ++
      "RCPT TO: ".toList ++ ("<".toList ++ pc ++ ">".toList) ++ crlf ++
      "DATA ".toList ++ crlf ++
      "To: ".toList ++ pc ++ crlf ++
      concat_all (step_fragments (subject_steps E m)) ++
      concat_all (step_fragments (body_steps E m)) ++
      ".".toList ++ crlf ++ "QUIT".toList ++ crlf := by
  have hcodes := expected_codes_session E m pc
  have hw := run_steps_wire E (session_steps E m pc)
    { sock := (create_socket_and_connect net.conn (smtp_host E pbs_conf pc) 25).1,
      recvs := net.recvs, sends := net.sends } hsend (by
      rw [hcodes, ← hrecv]
      intro k hk
      simp only [List.length_map, List.length_range] at hk
      simp [List.getD_eq_getElem?_getD, hk])
  rw [session_connected E pbs_conf m pc net hconn, wire_append, wire_append,
    connect_events_wire, hw]
  simp [session_steps, step_fragments_append, step_fragments, fragments, concat_all_append,
    concat_all, wire]

theorem open_after_append (a b : List Event) : ∀ o : List Int,
    open_after o (a ++ b) = open_after (open_after o a) b := by
  induction a with
  | nil => intro o; rfl
  | cons e a ih => intro o; cases e <;> simp [open_after, ih]

theorem open_after_of_sends (fd : Int) (l : List Event) (o : List Int)
    (h : ∀ e ∈ l, ∃ f r, e = Event.send fd f r) : open_after o l = o := by
  induction l with
  | nil => rfl
  | cons e l ih =>
    obtain ⟨f, r, rfl⟩ := h e (List.mem_cons_self _ _)
    simpa [open_after] using ih (fun e he => h e (List.mem_cons_of_mem _ he))

/-- The conversation opens and closes no socket. -/
theorem open_after_run_steps (E : Env) : ∀ (steps : List Step) (c : Conn) (o : List Int),
    open_after o (run_steps E steps c) = o := by
  intro steps
  induction steps with
  | nil => intro c o; rfl
  | cons s rest ih =>
    intro c o
    cases s with
    | expect code0 text0 =>
      simp only [run_steps, read_smtp_reply]
      split <;> simp [open_after, ih]
    | write msg1 msg2 msg3 text0 =>
      obtain ⟨_, _, _, _, s5⟩ := send_all_shape (fragments msg1 msg2 msg3) c 0
      have hs := open_after_of_sends _ _ o s5
      simp only [run_steps, write3_eq_send_all]
      split <;> simp [open_after_append, open_after, hs, ih]

/-- What `create_socket_and_connect` returns and which sockets it leaves open. -/
theorem connect_open_sockets (s : ConnectScript) (host : CStr) (port : Nat) :
    (0 ≤ (create_socket_and_connect s host port).1 →
      (create_socket_and_connect s host port).1 = s.socket ∧
      open_after [] (create_socket_and_connect s host port).2.2 = [s.socket] ∧
      leaves_socket_open s = false) ∧
    ((create_socket_and_connect s host port).1 < 0 →
      open_after [] (create_socket_and_connect s host port).2.2
        = if leaves_socket_open s = true then [s.socket] else []) := by
  have hres : ∀ b : Bool, ¬ b = false → b = true := by intro b; cases b <;> simp
  by_cases h1 : s.resolves = false
  · simp [create_socket_and_connect, h1, leaves_socket_open, open_after]
  by_cases h2 : s.socket < 0
  · have : ¬ 0 ≤ s.socket := by omega
    simp [create_socket_and_connect, h1, h2, leaves_socket_open, open_after, this]
  have h2p : 0 ≤ s.socket := by omega
  by_cases h3 : s.nonblock_ok = false
  · simp [create_socket_and_connect, h1, h2, h3, leaves_socket_open, open_after, h2p,
      hres _ h1]
  by_cases h4 : s.connect < 0
  · by_cases h5 : (s.connect_error = WSAEINTR ∨ s.connect_error = WSAEADDRINUSE ∨
        s.connect_error = WSAETIMEDOUT ∨ s.connect_error = WSAECONNREFUSED)
    · have h6 : ¬ s.connect_error = WSAEWOULDBLOCK := by
        rcases h5 with h | h | h | h <;> rw [h] <;> decide
      simp [create_socket_and_connect, h1, h2, h3, h4, h5, h6, leaves_socket_open,
        open_after, hres _ h1, hres _ h3]
    · by_cases h6 : s.connect_error = WSAEWOULDBLOCK
      · have hf : ¬ (WSAEWOULDBLOCK = WSAEINTR ∨ WSAEWOULDBLOCK = WSAEADDRINUSE ∨
            WSAEWOULDBLOCK = WSAETIMEDOUT ∨ WSAEWOULDBLOCK = WSAECONNREFUSED) := by decide
        by_cases h7 : s.select ≤ 0
        · simp [create_socket_and_connect, h1, h2, h3, h4, hf, h6, h7, leaves_socket_open,
            open_after, h2p, hres _ h1, hres _ h3]
        · by_cases h8 : s.block_ok = false
          · simp [create_socket_and_connect, h1, h2, h3, h4, hf, h6, h7, h8,
              leaves_socket_open, open_after, h2p, hres _ h1, hres _ h3]
          · simp [create_socket_and_connect, h1, h2, h3, h4, hf, h6, h7, h8,
              leaves_socket_open, open_after, h2, hres _ h1, hres _ h3]
      · simp [create_socket_and_connect, h1, h2, h3, h4, h5, h6, leaves_socket_open,
          open_after, hres _ h1, hres _ h3]
  · simp [create_socket_and_connect, h1, h2, h3, h4, leaves_socket_open, open_after, h2,
      hres _ h1, hres _ h3]

/-- The sockets a session leaves open: none, unless `create_socket_and_connect`
took one of the exits that return -1 without `closesocket`. -/
theorem session_open_sockets (E : Env) (pbs_conf : pbs_config) (m : mail_param) (pc : CStr)
    (net : Network) :
    open_after [] (session E pbs_conf m pc net)
      = if leaves_socket_open net.conn = true then [net.conn.socket] else [] := by
  obtain ⟨c1, c2⟩ := connect_open_sockets net.conn (smtp_host E pbs_conf pc) 25
  by_cases hs : (create_socket_and_connect net.conn (smtp_host E pbs_conf pc) 25).1 < 0
  · rw [session_not_connected E pbs_conf m pc net hs, open_after_append, c2 hs]
    rfl
  · obtain ⟨d1, d2, d3⟩ := c1 (by omega)
    rw [session_connected E pbs_conf m pc net (by omega), open_after_append,
      open_after_append, d2, open_after_run_steps, d1, d3]
    simp [open_after]

/-- With `force` equal to `MAIL_FORCE` the first test is passed, and
`svr_mailownerResv` goes on exactly when the mail points are not set or do not
hold `MAIL_NONE`. -/
theorem svr_mailownerResv_forced (E : Env) (MAIL_FORCE : Int) (pbs_conf : pbs_config)
    (presv : resc_resv) (mailpnts : Option CStr) (mailpoint : Int) :
    svr_mailownerResv E MAIL_FORCE pbs_conf presv mailpnts mailpoint MAIL_FORCE =
      match mailpnts with
      | some str =>
        if strchr_int str E.MAIL_NONE = true then none
        else some (svr_mailownerResv_mailto pbs_conf presv)
      | none => some (svr_mailownerResv_mailto pbs_conf presv) := by
  cases mailpnts with
  | none => simp [svr_mailownerResv, svr_mailownerResv_gate]
  | some str =>
    by_cases h : strchr_int str E.MAIL_NONE = true <;>
      simp [svr_mailownerResv, svr_mailownerResv_gate, h]

/-- The canned line of `send_mail` does not depend on the kind of the message. -/
theorem body_steps_any_type (E : Env) (m : mail_param) (t : Int) :
    body_steps E { m with type := t } = body_steps E m := rfl

/-! ## Recipients: the claims -/

/-- C1 (amended). Mail-user list of a job in `svr_mailowner_id`: when the total
rendered length of the candidates (each counted `len + 2`, plus `len host + 1`
when it has no `@` and a mail host is configured) is below 1024, `mailto` is
every candidate in input order, written with `@host` when it has no `@` and a
mail host is configured, each followed by one space; nothing is logged and the
loop has passed every candidate. -/
theorem C1_job_list_below_capacity (pbs_conf : pbs_config) (mailfrom : CStr) (pjob : job)
    (cands : List CStr) (hlist : pjob.JOB_ATR_mailuser = some (some cands))
    (hfit : totalLen pbs_conf.pbs_mail_host_name cands < 1024) :
    (svr_mailowner_id_mailto pbs_conf mailfrom (some pjob)).mailto
        = recipients pbs_conf.pbs_mail_host_name cands ∧
    (svr_mailowner_id_mailto pbs_conf mailfrom (some pjob)).log = [] ∧
    (svr_mailowner_id_mailto pbs_conf mailfrom (some pjob)).i = cands.length := by
  have hrun := job_loop_fitting pbs_conf.pbs_mail_host_name pjob.ji_jobid [] cands MailBuf.init
    (by simp [MailBuf.init]) (by simp only [MailBuf.init]; omega)
  obtain ⟨h1, h2, h3, _⟩ := foldl_accept_mailto pbs_conf.pbs_mail_host_name cands MailBuf.init
  simp only [svr_mailowner_id_mailto, hlist]
  rw [List.append_nil] at hrun
  rw [hrun]
  simp only [job_mailuser_loop]
  refine ⟨?_, ?_, ?_⟩
  · rw [h1]; simp [MailBuf.init]
  · rw [h2]; simp [MailBuf.init]
  · rw [h3]; simp [MailBuf.init]

/-- C1, witness: `bob` and `bob@other.com` with the mail host `mail.example.com`. -/
theorem C1_job_list_below_capacity_witness :
    (svr_mailowner_id_mailto ⟨some "mail.example.com".toList, none⟩ "adm".toList
      (some ⟨"7.srv".toList, some (some ["bob".toList, "bob@other.com".toList]),
        "bob@home".toList, "STDIN".toList⟩)).mailto
      = "bob@mail.example.com bob@other.com ".toList ∧
    (svr_mailowner_id_mailto ⟨some "mail.example.com".toList, none⟩ "adm".toList
      (some ⟨"7.srv".toList, some (some ["bob".toList, "bob@other.com".toList]),
        "bob@home".toList, "STDIN".toList⟩)).log = [] :=
  have h := C1_job_list_below_capacity ⟨some "mail.example.com".toList, none⟩ "adm".toList
    ⟨"7.srv".toList, some (some ["bob".toList, "bob@other.com".toList]),
      "bob@home".toList, "STDIN".toList⟩
    ["bob".toList, "bob@other.com".toList] rfl (by decide)
  ⟨h.1, h.2.1⟩

/-- C1 as stated fails at exactly 1024: one candidate of 1022 bytes and no mail
host has rendered length 1024, within "at most 1024", yet `mailto` stays empty
and the truncation event is logged. -/
theorem C1_counterexample_at_capacity :
    totalLen none [List.replicate 1022 'a'] ≤ 1024 ∧
    (svr_mailowner_id_mailto ⟨none, none⟩ [] (some ⟨[], some (some [List.replicate 1022 'a']),
      [], []⟩)).mailto = [] ∧
    recipients none [List.replicate 1022 'a'] ≠ [] ∧
    (svr_mailowner_id_mailto ⟨none, none⟩ [] (some ⟨[], some (some [List.replicate 1022 'a']),
      [], []⟩)).log = [LogEvent.list_too_long [] []] := by
  have hlen : renderedLen none (List.replicate 1022 'a') = 1024 :=
    renderedLen_replicate none 1022 'a' (by decide)
  have hrun := job_loop_reject none [] (List.replicate 1022 'a') [] MailBuf.init
    (by simp [MailBuf.init]) (by rw [hlen]; simp [MailBuf.init])
    (by rw [hlen]; simp [MailBuf.init])
  refine ⟨?_, ?_, ?_, ?_⟩
  · simp only [totalLen, List.map_cons, List.map_nil, List.sum_cons, List.sum_nil, hlen]
    decide
  · simp only [svr_mailowner_id_mailto]; rw [hrun]; rfl
  · exact recipients_cons_ne_nil none _ _
  · simp only [svr_mailowner_id_mailto]; rw [hrun]; rfl

/-- C2. Mail-user list of a job in `svr_mailowner_id`: when `c` is the first
candidate whose running rendered length is not below 1024 (the candidates `pre`
before it stay below, and running lengths only grow; the running length at `c`
is read as the test `mailaddrlen < sizeof(mailto)` reads it, from the `int`
counter, which is the length itself whenever it is below 2^31), `mailto` is
exactly the candidates before `c`, each written whole (with `@host` when it has
no `@` and a mail host is configured, unchanged otherwise) and followed by a
space; exactly one truncation event is logged; the loop index stays at `c`; and
the whole state is the one reached for the list cut after `c`, so that no later
candidate is looked at. -/
theorem C2_job_list_first_overflow (pbs_conf : pbs_config) (mailfrom : CStr) (pjob : job)
    (pre : List CStr) (c : CStr) (rest : List CStr)
    (hlist : pjob.JOB_ATR_mailuser = some (some (pre ++ c :: rest)))
    (hpre : totalLen pbs_conf.pbs_mail_host_name pre < 1024)
    (hover : 1024 ≤ toSizeT (toInt32 (totalLen pbs_conf.pbs_mail_host_name (pre ++ [c])))) :
    (svr_mailowner_id_mailto pbs_conf mailfrom (some pjob)).mailto
        = recipients pbs_conf.pbs_mail_host_name pre ∧
    (svr_mailowner_id_mailto pbs_conf mailfrom (some pjob)).log
        = [LogEvent.list_too_long pjob.ji_jobid
            ((recipients pbs_conf.pbs_mail_host_name pre).take 77)] ∧
    (svr_mailowner_id_mailto pbs_conf mailfrom (some pjob)).i = pre.length ∧
    svr_mailowner_id_mailto pbs_conf mailfrom (some pjob)
        = svr_mailowner_id_mailto pbs_conf mailfrom
            (some { pjob with JOB_ATR_mailuser := some (some (pre ++ [c])) }) := by
  obtain ⟨h1, h2, h3, h4⟩ := foldl_accept_mailto pbs_conf.pbs_mail_host_name pre MailBuf.init
  rw [show MailBuf.init.mailto = [] from rfl, List.nil_append] at h1
  rw [show MailBuf.init.log = [] from rfl] at h2
  rw [show MailBuf.init.i = 0 from rfl, Nat.zero_add] at h3
  rw [show MailBuf.init.mailaddrlen = 0 from rfl, Int.zero_add] at h4
  rw [totalLen_append, totalLen_cons] at hover
  simp only [totalLen, List.map_nil, List.sum_nil, Nat.add_zero] at hover
  have key : ∀ tail, job_mailuser_loop pbs_conf.pbs_mail_host_name pjob.ji_jobid
      (pre ++ c :: tail) MailBuf.init =
      { (pre.foldl (MailBuf.accept pbs_conf.pbs_mail_host_name) MailBuf.init) with
        mailaddrlen := toInt32 ((pre.foldl (MailBuf.accept pbs_conf.pbs_mail_host_name)
            MailBuf.init).mailaddrlen + (renderedLen pbs_conf.pbs_mail_host_name c : Int)),
        log := (pre.foldl (MailBuf.accept pbs_conf.pbs_mail_host_name) MailBuf.init).log ++
          [LogEvent.list_too_long pjob.ji_jobid
            ((pre.foldl (MailBuf.accept pbs_conf.pbs_mail_host_name)
              MailBuf.init).mailto.take 77)] } := by
    intro tail
    rw [job_loop_fitting pbs_conf.pbs_mail_host_name pjob.ji_jobid (c :: tail) pre MailBuf.init
      (by simp [MailBuf.init]) (by simp only [MailBuf.init]; omega)]
    rw [job_loop_reject_wrap _ _ _ _ _ (by
      rw [h4]; simp only [totalLen]; push_cast at hover ⊢; exact hover)]
  simp only [svr_mailowner_id_mailto, hlist]
  rw [key rest, key []]
  simp only [h1, h2, List.nil_append, h3, and_self]

/-- C2, witness: `bob` and `bob@other.com` are written, the third candidate of
1000 bytes overflows, the fourth is not looked at. -/
theorem C2_job_list_first_overflow_witness :
    (svr_mailowner_id_mailto ⟨some "mail.example.com".toList, none⟩ "adm".toList
      (some ⟨"7.srv".toList,
        some (some (["bob".toList, "bob@other.com".toList] ++
          List.replicate 1000 'x' :: ["carol".toList])),
        "bob@home".toList, "STDIN".toList⟩)).mailto
      = "bob@mail.example.com bob@other.com ".toList ∧
    (svr_mailowner_id_mailto ⟨some "mail.example.com".toList, none⟩ "adm".toList
      (some ⟨"7.srv".toList,
        some (some (["bob".toList, "bob@other.com".toList] ++
          List.replicate 1000 'x' :: ["carol".toList])),
        "bob@home".toList, "STDIN".toList⟩)).log
      = [LogEvent.list_too_long "7.srv".toList "bob@mail.example.com bob@other.com ".toList] :=
  have h := C2_job_list_first_overflow ⟨some "mail.example.com".toList, none⟩ "adm".toList
    ⟨"7.srv".toList,
      some (some (["bob".toList, "bob@other.com".toList] ++
        List.replicate 1000 'x' :: ["carol".toList])),
      "bob@home".toList, "STDIN".toList⟩
    ["bob".toList, "bob@other.com".toList] (List.replicate 1000 'x') ["carol".toList] rfl
    (by decide)
    (by
      simp only [totalLen, List.cons_append, List.nil_append, List.map_cons, List.map_nil,
        List.sum_cons, List.sum_nil,
        renderedLen_replicate (some "mail.example.com".toList) 1000 'x' (by decide)]
      decide)
  ⟨h.1, h.2.1⟩

/-- C3. Capacity of `mailto`: for every job and every reservation, whether it
has a mail-user list or only an owner, and every mail host setting, the total
rendered length of a mail-user list being below 2^31 so that the `int` counter
does not wrap, the string in `mailto` has at most 1023 bytes at the end of
`svr_mailowner_id` and of `svr_mailownerResv`, and after every write made to it
on the way. -/
theorem C3_recipient_buffer_capacity (pbs_conf : pbs_config) (mailfrom : CStr) (pjob : job)
    (presv : resc_resv)
    (hjob : ∀ l, pjob.JOB_ATR_mailuser = some (some l) →
      totalLen pbs_conf.pbs_mail_host_name l < 2147483648)
    (hresv : ∀ l, presv.RESV_ATR_mailuser = some (some l) →
      totalLen pbs_conf.pbs_mail_host_name l < 2147483648) :
    ((svr_mailowner_id_mailto pbs_conf mailfrom (some pjob)).mailto.length ≤ 1023 ∧
      ∀ s ∈ (svr_mailowner_id_mailto pbs_conf mailfrom (some pjob)).appended, s.length ≤ 1023) ∧
    ((svr_mailownerResv_mailto pbs_conf presv).mailto.length ≤ 1023 ∧
      ∀ s ∈ (svr_mailownerResv_mailto pbs_conf presv).appended, s.length ≤ 1023) := by
  have conv : ∀ b : MailBuf, b.within_capacity →
      b.mailto.length ≤ 1023 ∧ ∀ s ∈ b.appended, s.length ≤ 1023 := by
    intro b hb
    obtain ⟨h1, h2⟩ := hb
    simp only [MAIL_ADDR_BUF_LEN] at h1 h2
    exact ⟨by omega, fun s hs => by have := h2 s hs; omega⟩
  have hinit : MailBuf.init.within_capacity := by
    simp [MailBuf.within_capacity, MailBuf.init, MAIL_ADDR_BUF_LEN]
  refine ⟨conv _ ?_, conv _ ?_⟩
  · cases hl : pjob.JOB_ATR_mailuser with
    | none => simpa only [svr_mailowner_id_mailto, hl] using owner_within_capacity _ _ _
    | some pas =>
      cases pas with
      | none => simpa only [svr_mailowner_id_mailto, hl] using hinit
      | some l =>
        have hr := hjob l hl
        simp only [svr_mailowner_id_mailto, hl]
        exact job_loop_within_capacity _ _ l MailBuf.init (by simp [MailBuf.init])
          (by simp [MailBuf.init]) (by simp [MailBuf.init]) (by simp [MailBuf.init])
          (by simp only [MailBuf.init]; omega)
  · cases hl : presv.RESV_ATR_mailuser with
    | none => simpa only [svr_mailownerResv_mailto, hl] using owner_within_capacity _ _ _
    | some pas =>
      cases pas with
      | none => simpa only [svr_mailownerResv_mailto, hl] using hinit
      | some l =>
        have hr := hresv l hl
        simp only [svr_mailownerResv_mailto, hl]
        exact resv_loop_within_capacity _ _ l MailBuf.init (by simp [MailBuf.init])
          (by simp [MailBuf.init]) (by simp [MailBuf.init, MAIL_ADDR_BUF_LEN])
          (by simp [MailBuf.init]) (by simp only [MailBuf.init]; omega)

/-- C3, witness: a job with a two-entry mail-user list and a reservation with
only an owner. -/
theorem C3_recipient_buffer_capacity_witness :
    ((svr_mailowner_id_mailto ⟨some "mail.example.com".toList, none⟩ "adm".toList
        (some ⟨"7.srv".toList, some (some ["bob".toList, "bob@other.com".toList]),
          "bob@home".toList, "STDIN".toList⟩)).mailto.length ≤ 1023 ∧
      ∀ s ∈ (svr_mailowner_id_mailto ⟨some "mail.example.com".toList, none⟩ "adm".toList
        (some ⟨"7.srv".toList, some (some ["bob".toList, "bob@other.com".toList]),
          "bob@home".toList, "STDIN".toList⟩)).appended, s.length ≤ 1023) ∧
    ((svr_mailownerResv_mailto ⟨some "mail.example.com".toList, none⟩
        ⟨"R9.srv".toList, none, "carol@home".toList, "NULL".toList⟩).mailto.length ≤ 1023 ∧
      ∀ s ∈ (svr_mailownerResv_mailto ⟨some "mail.example.com".toList, none⟩
        ⟨"R9.srv".toList, none, "carol@home".toList, "NULL".toList⟩).appended,
        s.length ≤ 1023) :=
  C3_recipient_buffer_capacity ⟨some "mail.example.com".toList, none⟩ "adm".toList
    ⟨"7.srv".toList, some (some ["bob".toList, "bob@other.com".toList]),
      "bob@home".toList, "STDIN".toList⟩
    ⟨"R9.srv".toList, none, "carol@home".toList, "NULL".toList⟩
    (fun l hl => by
      have e : l = ["bob".toList, "bob@other.com".toList] := by
        simpa using hl.symm
      subst e
      decide)
    (fun l hl => by simp at hl)

/-- C4 (code at the failing input). Mail-user list of a reservation in
`svr_mailownerResv`, the list `a@x.com`, `b@y.com` with no mail host: the
rendered length is 18, far within the capacity, yet `mailto` is `a@x.com` with
no space after it, `b@y.com` is never reached (the loop index stays 0) and the
"Email list is too long" event is logged. -/
theorem C4_resv_list_stops_after_first_address :
    totalLen none ["a@x.com".toList, "b@y.com".toList] = 18 ∧
    (svr_mailownerResv_mailto ⟨none, none⟩
      ⟨"R9.srv".toList, some (some ["a@x.com".toList, "b@y.com".toList]),
        "carol@home".toList, "NULL".toList⟩).mailto = "a@x.com".toList ∧
    (svr_mailownerResv_mailto ⟨none, none⟩
      ⟨"R9.srv".toList, some (some ["a@x.com".toList, "b@y.com".toList]),
        "carol@home".toList, "NULL".toList⟩).log
      = [LogEvent.list_too_long "R9.srv".toList "a@x.com".toList] ∧
    (svr_mailownerResv_mailto ⟨none, none⟩
      ⟨"R9.srv".toList, some (some ["a@x.com".toList, "b@y.com".toList]),
        "carol@home".toList, "NULL".toList⟩).i = 0 ∧
    recipients none ["a@x.com".toList, "b@y.com".toList] = "a@x.com b@y.com ".toList := by
  decide

/-- C8. Owner branch of `svr_mailowner_id` and of `svr_mailownerResv` (no
mail-user list): with `o` the owner address cut to its first 1023 bytes and
`loc` the part of `o` before its first `@`, the recipient is `o` when no mail
host is configured; with the mail host `h` it is `loc@h` when
`len loc + len h + 1 < 1024`, and otherwise `o` unmodified with one "Email
address is too long" event logged (`owner_recipient` spells this out). -/
theorem C8_single_owner (pbs_conf : pbs_config) (mailfrom : CStr) (pjob : job)
    (presv : resc_resv) (hj : pjob.JOB_ATR_mailuser = none)
    (hr : presv.RESV_ATR_mailuser = none) :
    ((svr_mailowner_id_mailto pbs_conf mailfrom (some pjob)).mailto
        = (owner_recipient pbs_conf.pbs_mail_host_name (cstr pjob.JOB_ATR_job_owner)).1 ∧
      (svr_mailowner_id_mailto pbs_conf mailfrom (some pjob)).log
        = if (owner_recipient pbs_conf.pbs_mail_host_name (cstr pjob.JOB_ATR_job_owner)).2
          then [LogEvent.address_too_long pjob.ji_jobid
            (((cstr pjob.JOB_ATR_job_owner).take 1023).take 77)]
          else []) ∧
    ((svr_mailownerResv_mailto pbs_conf presv).mailto
        = (owner_recipient pbs_conf.pbs_mail_host_name (cstr presv.RESV_ATR_resv_owner)).1 ∧
      (svr_mailownerResv_mailto pbs_conf presv).log
        = if (owner_recipient pbs_conf.pbs_mail_host_name (cstr presv.RESV_ATR_resv_owner)).2
          then [LogEvent.address_too_long presv.ri_resvID
            (((cstr presv.RESV_ATR_resv_owner).take 1023).take 77)]
          else []) := by
  simp only [svr_mailowner_id_mailto, svr_mailownerResv_mailto, hj, hr]
  exact ⟨owner_mailto_eq _ _ _, owner_mailto_eq _ _ _⟩

/-- C8, witness: the owner `alice@home.org` with the mail host `mail.example.com`
becomes `alice@mail.example.com`, for a job and for a reservation. -/
theorem C8_single_owner_witness :
    (svr_mailowner_id_mailto ⟨some "mail.example.com".toList, none⟩ "adm".toList
      (some ⟨"7.srv".toList, none, "alice@home.org".toList, "STDIN".toList⟩)).mailto
      = "alice@mail.example.com".toList ∧
    (svr_mailownerResv_mailto ⟨some "mail.example.com".toList, none⟩
      ⟨"R9.srv".toList, none, "alice@home.org".toList, "NULL".toList⟩).mailto
      = "alice@mail.example.com".toList :=
  have h := C8_single_owner ⟨some "mail.example.com".toList, none⟩ "adm".toList
    ⟨"7.srv".toList, none, "alice@home.org".toList, "STDIN".toList⟩
    ⟨"R9.srv".toList, none, "alice@home.org".toList, "NULL".toList⟩ rfl rfl
  ⟨h.1.1, h.2.1⟩

/-! ## `read_smtp_reply` and `write3_smtp_data`: the claims -/

/-- C9 (amended). `read_smtp_reply` always returns a number: 554 when the
`recv` fails or yields no bytes, and when the text received (at most 511 bytes,
up to a NUL), after its leading white space, does not begin with an optionally
signed decimal integer; otherwise that integer, when it is in the range of `int`. -/
theorem C9_read_smtp_reply (E : Env) (c : Conn) :
    ((c.recvs.next = none ∨ c.recvs.next = some []) → (read_smtp_reply E c).1 = 554) ∧
    (∀ data, c.recvs.next = some data →
      leading_integer ((cstr (data.take 511)).dropWhile isspace) = none →
      (read_smtp_reply E c).1 = 554) ∧
    (∀ data v, c.recvs.next = some data →
      leading_integer ((cstr (data.take 511)).dropWhile isspace) = some v →
      -2147483648 ≤ v → v < 2147483648 → (read_smtp_reply E c).1 = v) := by
  refine ⟨?_, ?_, ?_⟩
  · rintro (h | h) <;> simp [read_smtp_reply, reply_code, h]
  · intro data hd hl
    simp only [read_smtp_reply, reply_code, hd, sscanf_d_eq, hl, Option.map_none']
    split <;> rfl
  · intro data v hd hl h1 h2
    have hne : 0 < (data.take 511).length := by
      rcases hdata : data.take 511 with _ | ⟨x, xs⟩
      · rw [hdata] at hl; simp [cstr, leading_integer] at hl
      · simp
    simp only [read_smtp_reply, reply_code, hd, sscanf_d_eq, hl, Option.map_some', hne, if_true]
    simp [store_int, h1, h2]

/-- C9, witness: `250 OK` gives 250, `220-greeting` gives 220, and a connection
that yields no bytes gives 554, as does the text `hello`. -/
theorem C9_read_smtp_reply_witness :
    (read_smtp_reply Env.sample
      ⟨5, Script.ofList [some "250 OK".toList] none, Script.ofList [] none⟩).1 = 250 ∧
    (read_smtp_reply Env.sample
      ⟨5, Script.ofList [some "220-greeting".toList] none, Script.ofList [] none⟩).1 = 220 ∧
    (read_smtp_reply Env.sample
      ⟨5, Script.ofList [some []] none, Script.ofList [] none⟩).1 = 554 ∧
    (read_smtp_reply Env.sample
      ⟨5, Script.ofList [some "hello".toList] none, Script.ofList [] none⟩).1 = 554 :=
  ⟨(C9_read_smtp_reply Env.sample
      ⟨5, Script.ofList [some "250 OK".toList] none, Script.ofList [] none⟩).2.2
      "250 OK".toList 250 rfl (by decide) (by decide) (by decide),
   (C9_read_smtp_reply Env.sample
      ⟨5, Script.ofList [some "220-greeting".toList] none, Script.ofList [] none⟩).2.2
      "220-greeting".toList 220 rfl (by decide) (by decide) (by decide),
   (C9_read_smtp_reply Env.sample
      ⟨5, Script.ofList [some []] none, Script.ofList [] none⟩).1 (Or.inr rfl),
   (C9_read_smtp_reply Env.sample
      ⟨5, Script.ofList [some "hello".toList] none, Script.ofList [] none⟩).2.1
      "hello".toList rfl (by decide)⟩

/-- C9 as stated fails on leading white space: the text ` 250` does not begin
with an integer, yet `read_smtp_reply` returns 250 and not 554. It also fails
on a number too large for `int`: the text `99999999999` begins with that
integer, which is not the value returned. -/
theorem C9_counterexample_leading_space :
    (leading_integer " 250".toList = none ∧
      (read_smtp_reply Env.sample
        ⟨5, Script.ofList [some " 250".toList] none, Script.ofList [] none⟩).1 = 250 ∧
      (250 : Int) ≠ 554) ∧
    (leading_integer "99999999999".toList = some 99999999999 ∧
      (read_smtp_reply Env.sample
        ⟨5, Script.ofList [some "99999999999".toList] none, Script.ofList [] none⟩).1
        ≠ 99999999999) := by
  decide

/-- C10. `write3_smtp_data` calls `send` for its fragments that are not NULL, in
the order msg1, msg2, msg3. When every one of these calls succeeds it returns
the sum of the byte counts they report (0 when all three are NULL) and has made
one call per fragment; when call `j` is the first to fail it returns
`SOCKET_ERROR` (-1) and has made the calls up to `j` only. -/
theorem C10_write3_smtp_data (c : Conn) (msg1 msg2 msg3 : Option CStr) :
    ((∀ k, k < (fragments msg1 msg2 msg3).length → c.sends k ≠ none) →
      (write3_smtp_data c msg1 msg2 msg3).1 = reported c (fragments msg1 msg2 msg3).length ∧
      (write3_smtp_data c msg1 msg2 msg3).2.2
        = send_calls c (fragments msg1 msg2 msg3) (fragments msg1 msg2 msg3).length) ∧
    (∀ j, j < (fragments msg1 msg2 msg3).length → c.sends j = none →
      (∀ k, k < j → c.sends k ≠ none) →
      (write3_smtp_data c msg1 msg2 msg3).1 = SOCKET_ERROR ∧
      (write3_smtp_data c msg1 msg2 msg3).2.2
        = send_calls c (fragments msg1 msg2 msg3) (j + 1)) ∧
    (write3_smtp_data c none none none).1 = 0 := by
  refine ⟨?_, ?_, rfl⟩
  · intro hall
    obtain ⟨h1, _, h3⟩ := send_all_success (fragments msg1 msg2 msg3) c 0 hall
    rw [write3_eq_send_all]
    exact ⟨by rw [h1]; simp, h3⟩
  · intro j hj hfail hbefore
    rw [write3_eq_send_all]
    exact send_all_failure (fragments msg1 msg2 msg3) c 0 j hj hfail hbefore

/-- C10, witness: NULL, `HELO `, `x.com`: the two fragments are sent in order and
the counts 5 and 5 add to 10; when the second `send` fails the value is -1. -/
theorem C10_write3_smtp_data_witness :
    ((write3_smtp_data ⟨5, Script.ofList [] none, Script.ofList [some 5, some 5] none⟩
        none (some "HELO ".toList) (some "x.com".toList)).1 = 10 ∧
      (write3_smtp_data ⟨5, Script.ofList [] none, Script.ofList [some 5, some 5] none⟩
        none (some "HELO ".toList) (some "x.com".toList)).2.2
        = [Event.send 5 "HELO ".toList (some 5), Event.send 5 "x.com".toList (some 5)]) ∧
    ((write3_smtp_data ⟨5, Script.ofList [] none, Script.ofList [some 5, none] none⟩
        (some "HELO ".toList) (some "x.com".toList) (some crlf)).1 = -1 ∧
      (write3_smtp_data ⟨5, Script.ofList [] none, Script.ofList [some 5, none] none⟩
        (some "HELO ".toList) (some "x.com".toList) (some crlf)).2.2
        = [Event.send 5 "HELO ".toList (some 5), Event.send 5 "x.com".toList none]) :=
  ⟨(C10_write3_smtp_data ⟨5, Script.ofList [] none, Script.ofList [some 5, some 5] none⟩
      none (some "HELO ".toList) (some "x.com".toList)).1 (by decide),
   (C10_write3_smtp_data ⟨5, Script.ofList [] none, Script.ofList [some 5, none] none⟩
      (some "HELO ".toList) (some "x.com".toList) (some crlf)).2.1 1 (by decide) rfl
      (by decide)⟩

/-! ## The sessions of `send_mail`: the claims -/

/-- C5. Abort of a session of `send_mail`: for every recipient and every
behaviour of the network, when a reply is read whose code differs from the one
required at that point (220, 250, 250, 250, 354, 250, 221 for the first to the
seventh reply), all that follows it is the `log_err` call carrying that code and
the `closesocket` of the connection: no command or data is sent any more. In
particular, when the replies read are 220, 250, 250, 550, what has been sent is
HELO, MAIL FROM and RCPT TO, the RCPT TO command being the last thing sent; DATA
is not sent. -/
theorem C5_session_abort (E : Env) (pbs_conf : pbs_config) (m : mail_param) (pc : CStr)
    (net : Network) :
    (∀ pre fd code post,
      session E pbs_conf m pc net = pre ++ Event.reply fd code :: post →
      [220, 250, 250, 250, 354, 250, 221][(codes_read pre).length]? ≠ some code →
      ∃ text, post = [Event.log_err code "send_mail" text, Event.closesocket fd]) ∧
    (codes_read (session E pbs_conf m pc net) = [220, 250, 250, 550] →
      sent (session E pbs_conf m pc net) =
        ["HELO ".toList, mailhost E pc, crlf,
         "MAIL FROM: ".toList, mailfrom_full m.mailfrom, crlf,
         "RCPT TO: ".toList, "<".toList ++ pc ++ ">".toList, crlf] ∧
      logged (session E pbs_conf m pc net) =
        [(550, "Service not ready for setting the RCPT TO attribute")]) := by
  obtain ⟨k1, k2, k3, _⟩ :=
    connect_events_plain net.conn (smtp_host E pbs_conf pc) 25
  by_cases hs : (create_socket_and_connect net.conn (smtp_host E pbs_conf pc) 25).1 < 0
  · -- no connection: no reply is ever read
    have htr := session_not_connected E pbs_conf m pc net hs
    have hnone : codes_read (session E pbs_conf m pc net) = [] := by
      rw [htr, codes_read_append, k1]; rfl
    refine ⟨?_, ?_⟩
    · intro pre fd code post h _
      rw [h, codes_read_append] at hnone
      simp [codes_read] at hnone
    · intro h
      rw [hnone] at h
      simp at h
  · have htr := session_connected E pbs_conf m pc net (by omega)
    refine ⟨?_, ?_⟩
    · intro pre fd code post h hbad
      rw [htr, List.append_assoc] at h
      obtain ⟨mid, e1, e2⟩ := split_after_sends _ _ _ _ _ _ k1 h
      obtain ⟨post1, e3, e4⟩ := split_before_last _ _ _ _ _ _ (by simp) e2
      obtain ⟨before, req, text, after, f1, f2, _, _, f5, f6⟩ :=
        run_steps_at_reply E _ _ _ _ _ _ e4
      have hcodes := expected_codes_session E m pc
      rw [f1, expected_codes_append] at hcodes
      simp only [expected_codes] at hcodes
      have hk : (codes_read pre).length = (expected_codes before).length := by
        rw [e1, codes_read_append, k1, List.nil_append, f2]
      have hreq : [220, 250, 250, 250, 354, 250, 221][(codes_read pre).length]? = some req := by
        rw [← hcodes, hk, List.getElem?_append_right (le_refl _)]
        simp
      rw [hreq] at hbad
      have hne : code ≠ req := fun e => hbad (by rw [e])
      refine ⟨text, ?_⟩
      rw [e3, f6 hne, f5]
      rfl
    · intro h
      rw [htr, codes_read_append, codes_read_append, k1] at h
      simp only [List.nil_append, codes_read, List.append_nil] at h
      obtain ⟨pre, fd, post, e1, e2, e3⟩ :=
        codes_read_split _ [220, 250, 250] 550 h
      obtain ⟨before, req, text, after, f1, f2, f3, f4, _, f6⟩ :=
        run_steps_at_reply E _ _ _ _ _ _ e1
      have hsplit : session_steps E m pc =
          [ Step.expect 220 "Service not ready for creation and connection of socket.",
            Step.write (some "HELO ".toList) (some (mailhost E pc)) (some crlf)
              "Conversation with the mail server cannot be initiated.",
            Step.expect 250 "Service not ready for Initiation.",
            Step.write (some "MAIL FROM: ".toList) (some (mailfrom_full m.mailfrom)) (some crlf)
              "Error sending MAIL FROM: command to SMTP server",
            Step.expect 250 "Service not ready for setting the MAIL FROM attribute",
            Step.write (some "RCPT TO: ".toList) (some ("<".toList ++ pc ++ ">".toList))
              (some crlf) "Error sending RCPT TO: command to SMTP server" ] ++
          Step.expect 250 "Service not ready for setting the RCPT TO attribute" ::
          ([ Step.write (some "DATA ".toList) (some crlf) none
              "Error sending DATA command to SMTP server",
            Step.expect 354 "Service Not Ready for Data Setting",
            Step.write (some "To: ".toList) (some pc) (some crlf)
              "Error sending To: command to SMTP server" ] ++
          subject_steps E m ++ body_steps E m ++
          [ Step.write (some (".".toList ++ crlf)) none none
              "Error sending Mail Data Termination to SMTP server",
            Step.expect 250 "Service not ready to terminate Mail Data",
            Step.write (some ("QUIT".toList ++ crlf)) none none
              "Error sending QUIT to SMTP server",
            Step.expect 221 "Service not ready to Quit" ]) := by
        simp [session_steps]
      rw [hsplit] at f1
      obtain ⟨g1, g2, g3, _⟩ := split_at_expect_unique _ _ _ _ _ _ _ _ f1
        (by rw [← f2, e2]; simp [expected_codes])
      have hpost : post = [Event.log_err 550 "send_mail" text] :=
        f6 (by rw [← g2]; decide)
      rw [htr, e1, hpost]
      refine ⟨?_, ?_⟩
      · simp only [sent_append, k2, List.nil_append, f3, ← g1, sent, step_fragments, fragments,
          List.reduceOption_cons_of_some, List.reduceOption_nil, List.append_nil]
        rfl
      · simp only [logged_append, k3, List.nil_append, f4, logged, ← g3]
        rfl

/-- C5, witness: the server answers 220, 250, 250 and then 550 to RCPT TO. -/
theorem C5_session_abort_witness :
    (∃ text,
      [Event.log_err 550 "send_mail" "Service not ready for setting the RCPT TO attribute",
        Event.closesocket 5] = [Event.log_err 550 "send_mail" text, Event.closesocket 5]) ∧
    sent (session Env.sample ⟨none, none⟩ (mail_param.sample "a@x.com") "a@x.com".toList
        (Network.sample ["220 ready", "250 ok", "250 ok", "550 no such user"] 1)) =
      ["HELO ".toList, "x.com".toList, crlf,
       "MAIL FROM: ".toList, "<adm@pbspro.com>".toList, crlf,
       "RCPT TO: ".toList, "<a@x.com>".toList, crlf] :=
  ⟨(C5_session_abort Env.sample ⟨none, none⟩ (mail_param.sample "a@x.com") "a@x.com".toList
      (Network.sample ["220 ready", "250 ok", "250 ok", "550 no such user"] 1)).1
      [Event.gethostbyname "x.com".toList, Event.socket 5, Event.connect 5 25,
       Event.reply 5 220,
       Event.send 5 "HELO ".toList (some 1), Event.send 5 "x.com".toList (some 1),
       Event.send 5 crlf (some 1),
       Event.reply 5 250,
       Event.send 5 "MAIL FROM: ".toList (some 1),
       Event.send 5 "<adm@pbspro.com>".toList (some 1), Event.send 5 crlf (some 1),
       Event.reply 5 250,
       Event.send 5 "RCPT TO: ".toList (some 1), Event.send 5 "<a@x.com>".toList (some 1),
       Event.send 5 crlf (some 1)]
      5 550
      [Event.log_err 550 "send_mail" "Service not ready for setting the RCPT TO attribute",
       Event.closesocket 5]
      (by decide) (by decide),
   ((C5_session_abort Env.sample ⟨none, none⟩ (mail_param.sample "a@x.com") "a@x.com".toList
      (Network.sample ["220 ready", "250 ok", "250 ok", "550 no such user"] 1)).2
      (by decide)).1⟩

/-- C6. Success of a session of `send_mail`: for every recipient, sender and
message of any kind, when the connection is made, every `send` succeeds and the
replies read are 220, 250, 250, 250, 354, 250, 221 in that sequence, the session
reads these seven replies, sends in this order HELO, MAIL FROM, RCPT TO, DATA,
the headers and the body, the end of data and QUIT, logs no error, and ends by
closing its connection. -/
theorem C6_session_success (E : Env) (pbs_conf : pbs_config) (m : mail_param) (pc : CStr)
    (net : Network)
    (hconn : 0 ≤ (create_socket_and_connect net.conn (smtp_host E pbs_conf pc) 25).1)
    (hsend : ∀ k, net.sends k ≠ none)
    (hrecv : (List.range 7).map (fun k => reply_code E (net.recvs k))
      = [220, 250, 250, 250, 354, 250, 221]) :
    codes_read (session E pbs_conf m pc net) = [220, 250, 250, 250, 354, 250, 221] ∧
    sent (session E pbs_conf m pc net) =
      ["HELO ".toList, mailhost E pc, crlf,
       "MAIL FROM: ".toList, mailfrom_full m.mailfrom, crlf,
       "RCPT TO: ".toList, "<".toList ++ pc ++ ">".toList, crlf,
       "DATA ".toList, crlf,
       "To: ".toList, pc, crlf] ++
      step_fragments (subject_steps E m) ++ step_fragments (body_steps E m) ++
      [".".toList ++ crlf, "QUIT".toList ++ crlf] ∧
    logged (session E pbs_conf m pc net) = [] ∧
    (session E pbs_conf m pc net).getLast? = some (Event.closesocket
      (create_socket_and_connect net.conn (smtp_host E pbs_conf pc) 25).1) := by
  obtain ⟨k1, k2, k3, _⟩ := connect_events_plain net.conn (smtp_host E pbs_conf pc) 25
  have hcodes := expected_codes_session E m pc
  obtain ⟨r1, r2, r3⟩ := run_steps_success E (session_steps E m pc)
    { sock := (create_socket_and_connect net.conn (smtp_host E pbs_conf pc) 25).1,
      recvs := net.recvs, sends := net.sends } hsend (by
      rw [hcodes, ← hrecv]
      intro k hk
      simp only [List.length_map, List.length_range] at hk
      simp [List.getD_eq_getElem?_getD, hk])
  rw [session_connected E pbs_conf m pc net hconn]
  refine ⟨?_, ?_, ?_, ?_⟩
  · rw [codes_read_append, codes_read_append, k1, r1, hcodes]; rfl
  · rw [sent_append, sent_append, k2, r2]
    simp only [session_steps, step_fragments_append, step_fragments, fragments,
      List.reduceOption_cons_of_some, List.reduceOption_cons_of_none, List.reduceOption_nil,
      sent]
    simp [step_fragments_append, step_fragments, fragments]
  · rw [logged_append, logged_append, k3, r3]; rfl
  · simp

/-- C6, witness: a job message to `b@y.com`, the server answering as required. -/
theorem C6_session_success_witness :
    codes_read (session Env.sample ⟨none, none⟩ (mail_param.sample "b@y.com") "b@y.com".toList
      (Network.sample ["220 ready", "250 ok", "250 ok", "250 ok", "354 go", "250 ok",
        "221 bye"] 1)) = [220, 250, 250, 250, 354, 250, 221] ∧
    logged (session Env.sample ⟨none, none⟩ (mail_param.sample "b@y.com") "b@y.com".toList
      (Network.sample ["220 ready", "250 ok", "250 ok", "250 ok", "354 go", "250 ok",
        "221 bye"] 1)) = [] ∧
    (session Env.sample ⟨none, none⟩ (mail_param.sample "b@y.com") "b@y.com".toList
      (Network.sample ["220 ready", "250 ok", "250 ok", "250 ok", "354 go", "250 ok",
        "221 bye"] 1)).getLast? = some (Event.closesocket 5) :=
  have h := C6_session_success Env.sample ⟨none, none⟩ (mail_param.sample "b@y.com")
    "b@y.com".toList
    (Network.sample ["220 ready", "250 ok", "250 ok", "250 ok", "354 go", "250 ok",
      "221 bye"] 1)
    (by decide) (fun k => by simp [Network.sample, Script.ofList]) (by decide)
  ⟨h.1, h.2.2.1, h.2.2.2⟩

/-- C7. One session per recipient, in order, whatever happens: for every
recipients string and every behaviour of the network, the turns of the loop of
`send_mail` are, in order, the non-empty pieces of the string between spaces;
turn `k` is one session for its token, run against the network behaviour of
that turn alone, with exactly one connection attempt; hence the recipients
attempted are the same under any other behaviour of the network, whether
earlier sessions fail or not. -/
theorem C7_one_session_per_token (E : Env) (pbs_conf : pbs_config) (m : mail_param)
    (net : Nat → Network) :
    (send_mail E pbs_conf m net).map Prod.fst
      = (m.mailto.splitOn ' ').filter (fun t => !t.isEmpty) ∧
    (∀ k p, (send_mail E pbs_conf m net)[k]? = some p →
      p.2 = session E pbs_conf m p.1 (net k) ∧
      connect_attempts p.2 = [smtp_host E pbs_conf p.1]) ∧
    (∀ net2 : Nat → Network,
      (send_mail E pbs_conf m net2).map Prod.fst = (send_mail E pbs_conf m net).map Prod.fst) := by
  have htok : strtok_all ' ' m.mailto [] = (m.mailto.splitOn ' ').filter (fun t => !t.isEmpty) := by
    rw [strtok_all_eq]
    congr 1
    cases List.splitOn ' ' m.mailto <;> rfl
  have hmap : ∀ n : Nat → Network, (send_mail E pbs_conf m n).map Prod.fst
      = (m.mailto.splitOn ' ').filter (fun t => !t.isEmpty) := by
    intro n
    rw [← htok]
    exact (send_mail_loop_spec E pbs_conf m n _ 0).1
  refine ⟨hmap net, ?_, fun net2 => by rw [hmap net2, hmap net]⟩
  intro k p hp
  have h := (send_mail_loop_spec E pbs_conf m net (strtok_all ' ' m.mailto []) 0).2 k p hp
  rw [Nat.zero_add] at h
  exact ⟨h, by rw [h]; exact connect_attempts_session E pbs_conf m p.1 (net k)⟩

/-- C7, witness: for `a@x.com b@y.com` the connection of the first session is
refused, and the second session is made all the same; an empty recipients
string makes no session. -/
theorem C7_one_session_per_token_witness :
    (send_mail Env.sample ⟨none, none⟩ (mail_param.sample "a@x.com b@y.com")
      (fun k => if k = 0 then { Network.sample [] 1 with conn := ConnectScript.refused }
        else Network.sample ["220 ready", "250 ok", "250 ok", "250 ok", "354 go", "250 ok",
          "221 bye"] 1)).map Prod.fst = ["a@x.com".toList, "b@y.com".toList] ∧
    connect_attempts (session Env.sample ⟨none, none⟩ (mail_param.sample "a@x.com b@y.com")
      "b@y.com".toList (Network.sample ["220 ready", "250 ok", "250 ok", "250 ok", "354 go",
        "250 ok", "221 bye"] 1)) = ["y.com".toList] ∧
    send_mail Env.sample ⟨none, none⟩ (mail_param.sample "")
      (fun _ => Network.sample [] 1) = [] :=
  have h := C7_one_session_per_token Env.sample ⟨none, none⟩
    (mail_param.sample "a@x.com b@y.com")
    (fun k => if k = 0 then { Network.sample [] 1 with conn := ConnectScript.refused }
      else Network.sample ["220 ready", "250 ok", "250 ok", "250 ok", "354 go", "250 ok",
        "221 bye"] 1)
  have h2 := h.2.1 1
    ("b@y.com".toList, session Env.sample ⟨none, none⟩ (mail_param.sample "a@x.com b@y.com")
      "b@y.com".toList (Network.sample ["220 ready", "250 ok", "250 ok", "250 ok", "354 go",
        "250 ok", "221 bye"] 1)) rfl
  ⟨h.1.trans (by decide), h2.2, by decide⟩

/-! ## Sender, wire, sockets, canned line and gate: the claims -/

/-- C11. Sender of `send_mail`: for every `mailfrom` that contains `@` the
sender is `<mailfrom>`, for every `mailfrom` that contains none it is
`<mailfrom@pbspro.com>`; and this string is what every session sends right
after `MAIL FROM: `, as the fifth of its fragments. -/
theorem C11_sender_normalisation (E : Env) (m : mail_param) (pc : CStr) :
    ('@' ∈ m.mailfrom → mailfrom_full m.mailfrom = '<' :: m.mailfrom ++ ['>']) ∧
    ('@' ∉ m.mailfrom →
      mailfrom_full m.mailfrom = '<' :: m.mailfrom ++ '@' :: "pbspro.com".toList ++ ['>']) ∧
    (step_fragments (session_steps E m pc))[3]? = some "MAIL FROM: ".toList ∧
    (step_fragments (session_steps E m pc))[4]? = some (mailfrom_full m.mailfrom) := by
  refine ⟨?_, ?_, ?_, ?_⟩
  · intro h
    have hne : ¬ strchr m.mailfrom '@' = none := by rw [strchr_eq_none_iff]; simpa using h
    simp [mailfrom_full, hne]
  · intro h
    have hne : strchr m.mailfrom '@' = none := by rw [strchr_eq_none_iff]; exact h
    simp [mailfrom_full, hne]
  · simp [session_steps, step_fragments, fragments]
  · simp [session_steps, step_fragments, fragments]

/-- C11, witness: `alice` gives `<alice@pbspro.com>` and `alice@x.com` gives
`<alice@x.com>`. -/
theorem C11_sender_normalisation_witness :
    mailfrom_full "alice".toList = "<alice@pbspro.com>".toList ∧
    mailfrom_full "alice@x.com".toList = "<alice@x.com>".toList :=
  ⟨(C11_sender_normalisation Env.sample
      { mail_param.sample "a@x.com" with mailfrom := "alice".toList } "a@x.com".toList).2.1
      (by decide),
   (C11_sender_normalisation Env.sample
      { mail_param.sample "a@x.com" with mailfrom := "alice@x.com".toList } "a@x.com".toList).1
      (by decide)⟩

set_option maxRecDepth 20000 in
/-- C12 (code at the failing input). A session to `a@x.com` in which every reply
is the required one and every `send` reports the whole of its string: the
bytes on the connection are `HELO x.com`, `MAIL FROM: <adm@pbspro.com>` and
`RCPT TO: <a@x.com>`, each ended by CR LF, then `DATA`, a space, CR LF, where
the command is `DATA` CR LF; the headers and the body follow, then `.` CR LF
and `QUIT` CR LF. -/
theorem C12_data_command_carries_a_space :
    wire (session Env.sample ⟨none, none⟩ (mail_param.sample "a@x.com") "a@x.com".toList
      (Network.counted ["220 ready", "250 ok", "250 ok", "250 ok", "354 go", "250 ok", "221 bye"]
        [5, 5, 2, 11, 16, 2, 9, 9, 2, 5, 2, 4, 7, 2, 17, 6, 3, 21, 6, 2, 10, 5, 2, 15, 2, 5, 2,
          3, 6]))
      = "HELO x.com".toList ++ crlf ++ "MAIL FROM: <adm@pbspro.com>".toList ++ crlf ++
        "RCPT TO: <a@x.com>".toList ++ crlf ++ "DATA ".toList ++ crlf ++
        "To: a@x.com".toList ++ crlf ++ "Subject: PBS JOB 12.srv".toList ++ lfcrlf ++
        "Subject: PBS Job Id: 12.srv".toList ++ crlf ++ "Job Name: STDIN".toList ++ crlf ++
        "Begun execution".toList ++ crlf ++ "hello".toList ++ crlf ++
        ".".toList ++ crlf ++ "QUIT".toList ++ crlf ∧
    "DATA ".toList ++ crlf ≠ "DATA".toList ++ crlf ∧
    logged (session Env.sample ⟨none, none⟩ (mail_param.sample "a@x.com") "a@x.com".toList
      (Network.counted ["220 ready", "250 ok", "250 ok", "250 ok", "354 go", "250 ok", "221 bye"]
        [5, 5, 2, 11, 16, 2, 9, 9, 2, 5, 2, 4, 7, 2, 17, 6, 3, 21, 6, 2, 10, 5, 2, 15, 2, 5, 2,
          3, 6])) = [] :=
  ⟨rfl, by decide, rfl⟩

/-- C13 (code at the failing input). `connect` would block and `select` times
out: `create_socket_and_connect` returns -1 without `closesocket`, `send_mail`
logs the failure and, having no descriptor, closes nothing, so socket 5 is
still open when the turn for `a@x.com` ends, and still open after the turn for
`b@y.com`, whose own socket 6 is closed. -/
theorem C13_timed_out_connect_leaves_socket_open :
    session Env.sample ⟨none, none⟩ (mail_param.sample "a@x.com b@y.com") "a@x.com".toList
        { Network.sample [] 1 with conn := ConnectScript.timeout }
      = [Event.gethostbyname "x.com".toList, Event.socket 5, Event.connect 5 25,
         Event.log_err 10035 "send_mail" "Socket creation and connection Failed."] ∧
    open_after [] (session Env.sample ⟨none, none⟩ (mail_param.sample "a@x.com b@y.com")
        "a@x.com".toList { Network.sample [] 1 with conn := ConnectScript.timeout }) = [5] ∧
    (send_mail Env.sample ⟨none, none⟩ (mail_param.sample "a@x.com b@y.com")
        (fun k => if k = 0 then { Network.sample [] 1 with conn := ConnectScript.timeout }
          else { Network.sample ["220 ready", "250 ok", "250 ok", "250 ok", "354 go", "250 ok",
            "221 bye"] 1 with conn := { ConnectScript.sample with socket := 6 } })).foldl
        (fun o p => open_after o p.2) [] = [5] := by
  decide

/-- C14 (code at the failing inputs). A reservation message (type 1) in
`send_mail` takes its canned line from the job texts and has no case for
`MAIL_CONFIRM`: at Confirm it has no canned line where the sendmail path of
`svr_mailownerResv` has `msg_resv_confirm`; at Abort it has `msg_job_abort`
where the sendmail path has `msg_resv_abort`; at a stage-in failure it has
`msg_job_stageinfail` where the sendmail path has none; and the steps sent for
the body are those of a job message. -/
theorem C14_reservation_canned_line_differs :
    (send_mail_stdmessage Env.sample Env.sample.MAIL_CONFIRM = none ∧
      svr_mailownerResv_stdmessage Env.sample Env.sample.MAIL_CONFIRM
        = Env.sample.msg_resv_confirm ∧ Env.sample.msg_resv_confirm ≠ none) ∧
    (send_mail_stdmessage Env.sample Env.sample.MAIL_ABORT = Env.sample.msg_job_abort ∧
      svr_mailownerResv_stdmessage Env.sample Env.sample.MAIL_ABORT
        = Env.sample.msg_resv_abort ∧ Env.sample.msg_job_abort ≠ Env.sample.msg_resv_abort) ∧
    (send_mail_stdmessage Env.sample Env.sample.MAIL_STAGEIN = Env.sample.msg_job_stageinfail ∧
      svr_mailownerResv_stdmessage Env.sample Env.sample.MAIL_STAGEIN = none) ∧
    body_steps Env.sample
        { mail_param.sample "a@x.com" with type := 1, mailpoint := Env.sample.MAIL_CONFIRM }
      = [Step.write (some "hello".toList) (some crlf) none
          "Error sending Mail Data to SMTP server"] ∧
    body_steps Env.sample
        { mail_param.sample "a@x.com" with type := 1, mailpoint := Env.sample.MAIL_ABORT }
      = [Step.write (some "Aborted by PBS Server ".toList) (some crlf) none
          "Error sending Mail Point to SMTP server",
         Step.write (some "hello".toList) (some crlf) none
          "Error sending Mail Data to SMTP server"] := by
  decide

/-- C15 (code at the failing inputs). `svr_mailownerResv` with `force` equal to
`MAIL_FORCE` (1) and mail points set to `n` (`MAIL_NONE`) returns before any
mail is built, for the mail point Abort; so it does with mail points `an`. With
`force` 2, non-zero but not `MAIL_FORCE`, and mail points not set, it returns
at the first test for the mail point Begin. With `force` 1 and mail points not
set it goes on. -/
theorem C15_forced_mail_still_gated :
    svr_mailownerResv Env.sample 1 ⟨none, none⟩
      ⟨"R9.srv".toList, none, "carol@home".toList, "NULL".toList⟩
      (some "n".toList) Env.sample.MAIL_ABORT 1 = none ∧
    svr_mailownerResv Env.sample 1 ⟨none, none⟩
      ⟨"R9.srv".toList, none, "carol@home".toList, "NULL".toList⟩
      (some "an".toList) Env.sample.MAIL_ABORT 1 = none ∧
    svr_mailownerResv Env.sample 1 ⟨none, none⟩
      ⟨"R9.srv".toList, none, "carol@home".toList, "NULL".toList⟩
      none Env.sample.MAIL_BEGIN 2 = none ∧
    (svr_mailownerResv Env.sample 1 ⟨none, none⟩
      ⟨"R9.srv".toList, none, "carol@home".toList, "NULL".toList⟩
      none Env.sample.MAIL_BEGIN 1).isSome = true := by
  decide

end SvrMail
